import Mathlib

/-!
Verification of the medical-evidence backend's multi-source search pipeline.

Shallow embedding of the JavaScript source:
* `src/server.js` — retry utility, multi-source `performSearch` (dedup),
  cached PubMed search, CrossRef enrichment service;
* `src/services/unpaywall.service.js` — Unpaywall enrichment;
* `src/services/clinicaltrials.service.js` — ClinicalTrials adapter and the
  in-memory `CacheService`;
* `src/services/openalex.service.js` — OpenAlex adapter;
* the smart-routing service (`SmartRoutingService`).

Machine integers do not occur (all JS numbers used here are small non-negative
counters, timestamps and HTTP statuses), so they are modelled by `Nat`/`Int`.
Network calls are modelled by passing the call's outcome (`Except JsErr …`)
as an explicit argument; a thrown JS exception is an `Except.error`.
-/

set_option autoImplicit false

namespace MedEvidence

/-- A JavaScript error as inspected by the retry utility: `error.response?.status`
is `some s` when the error carries an HTTP response with status `s`, and `none`
for transport-level failures (timeout, DNS, …) that have no `response`. -/
structure JsErr where
  status : Option Nat
  deriving DecidableEq, Repr

/-- Embedding of the guard on line 45 of `src/server.js`:
`error.response?.status >= 400 && error.response?.status < 500 && error.response?.status !== 429`.
When there is no `response`, the JS comparison `undefined >= 400` is `false`. -/
def isClientError (e : JsErr) : Bool :=
  match e.status with
  | some s => decide (400 ≤ s) && decide (s < 500) && decide (s ≠ 429)
  | none => false

/-- Observable outcome of one `retryWithBackoff` run: the returned value or the
thrown error (`Except.error none` models JS throwing the still-`undefined`
`lastError` when the loop body never ran), the number of attempts that were
executed, and the total time spent sleeping in backoff delays. -/
structure RetryOutcome (α : Type) where
  result : Except (Option JsErr) α
  attempts : Nat
  totalDelay : Nat
  deriving Repr

/-- Loop of `retryWithBackoff` (`src/server.js` lines 38-60).  The operation
`fn` is given the attempt index so that a stateful JS closure (failing on some
attempts, succeeding on others) can be modelled; `remaining` counts the loop
iterations still allowed (`maxRetries - attempt`). -/
def retryAux {α : Type} (fn : Nat → Except JsErr α) (maxRetries initialDelay : Nat) :
    Nat → Nat → Option JsErr → Nat → RetryOutcome α
  | attempt, 0, lastError, delayAcc => ⟨.error lastError, attempt, delayAcc⟩
  | attempt, remaining + 1, _lastError, delayAcc =>
    match fn attempt with
    | .ok v => ⟨.ok v, attempt + 1, delayAcc⟩
    | .error e =>
      if isClientError e then ⟨.error (some e), attempt + 1, delayAcc⟩
      else if attempt == maxRetries - 1 then ⟨.error (some e), attempt + 1, delayAcc⟩
      else retryAux fn maxRetries initialDelay (attempt + 1) remaining (some e)
            (delayAcc + initialDelay * 2 ^ attempt)

/-- `retryWithBackoff(fn, maxRetries, initialDelay)` from `src/server.js`
lines 35-63 (the defaults at the call sites are `3` and `1000`). -/
def retryWithBackoff {α : Type} (fn : Nat → Except JsErr α) (maxRetries initialDelay : Nat) :
    RetryOutcome α :=
  retryAux fn maxRetries initialDelay 0 maxRetries none 0

/-- `fn j` failed on attempt `j` with an error the policy considers transient. -/
def retriedThrough {α : Type} (fn : Nat → Except JsErr α) (k : Nat) : Prop :=
  ∀ j, j < k → ∃ ej, fn j = .error ej ∧ isClientError ej = false

section RetryLemmas

variable {α : Type}

private theorem pow_two_delay_merge (d a k acc : Nat) :
    acc + d * 2 ^ a + d * (2 ^ (a + 1 + k) - 2 ^ (a + 1)) =
      acc + d * (2 ^ (a + 1 + k) - 2 ^ a) := by
  have h1 : 2 ^ (a + 1) = 2 * 2 ^ a := by rw [pow_succ]; ring
  have h2 : 2 ^ (a + 1) ≤ 2 ^ (a + 1 + k) := Nat.pow_le_pow_right (by norm_num) (by omega)
  have h3 : (2 : Nat) ^ a ≤ 2 ^ (a + 1) := Nat.pow_le_pow_right (by norm_num) (by omega)
  have e1 : d * (2 ^ (a + 1 + k) - 2 ^ (a + 1)) + d * 2 ^ (a + 1) = d * 2 ^ (a + 1 + k) := by
    rw [← Nat.mul_add, Nat.sub_add_cancel h2]
  have e2 : d * (2 ^ (a + 1 + k) - 2 ^ a) + d * 2 ^ a = d * 2 ^ (a + 1 + k) := by
    rw [← Nat.mul_add, Nat.sub_add_cancel (le_trans h3 h2)]
  have e3 : d * 2 ^ (a + 1) = 2 * (d * 2 ^ a) := by rw [h1]; ring
  omega

private theorem retryAux_success (fn : Nat → Except JsErr α) (n d : Nat) (k : Nat) :
    ∀ (a r : Nat) (le : Option JsErr) (acc : Nat) (v : α),
      a + r = n → k < r →
      (∀ j, j < k → ∃ ej, fn (a + j) = .error ej ∧ isClientError ej = false) →
      fn (a + k) = .ok v →
      retryAux fn n d a r le acc = ⟨.ok v, a + k + 1, acc + d * (2 ^ (a + k) - 2 ^ a)⟩ := by
  induction k with
  | zero =>
    intro a r le acc v har hkr _ hok
    obtain ⟨r', rfl⟩ := Nat.exists_eq_succ_of_ne_zero (Nat.pos_iff_ne_zero.mp hkr)
    simp only [Nat.add_zero] at hok
    simp [retryAux, hok, Nat.sub_self]
  | succ k ih =>
    intro a r le acc v har hkr hfail hok
    obtain ⟨r', rfl⟩ := Nat.exists_eq_succ_of_ne_zero (by omega : r ≠ 0)
    obtain ⟨e0, he0, hc0⟩ := hfail 0 (Nat.succ_pos k)
    simp only [Nat.add_zero] at he0
    have hne : (a == n - 1) = false := by
      simp only [beq_eq_false_iff_ne]; omega
    simp only [retryAux, he0, hc0, Bool.false_eq_true, if_false, hne]
    have step := ih (a + 1) r' (some e0) (acc + d * 2 ^ a) v (by omega) (by omega)
      (fun j hj => by
        obtain ⟨ej, hej, hcj⟩ := hfail (j + 1) (by omega)
        exact ⟨ej, by rwa [show a + 1 + j = a + (j + 1) by omega], hcj⟩)
      (by rwa [show a + 1 + k = a + (k + 1) by omega])
    have hix : a + 1 + k = a + (k + 1) := by omega
    rw [step, pow_two_delay_merge, hix]

private theorem retryAux_clientError (fn : Nat → Except JsErr α) (n d : Nat) (k : Nat) :
    ∀ (a r : Nat) (le : Option JsErr) (acc : Nat) (e : JsErr),
      a + r = n → k < r →
      (∀ j, j < k → ∃ ej, fn (a + j) = .error ej ∧ isClientError ej = false) →
      fn (a + k) = .error e → isClientError e = true →
      retryAux fn n d a r le acc =
        ⟨.error (some e), a + k + 1, acc + d * (2 ^ (a + k) - 2 ^ a)⟩ := by
  induction k with
  | zero =>
    intro a r le acc e har hkr _ herr hcl
    obtain ⟨r', rfl⟩ := Nat.exists_eq_succ_of_ne_zero (Nat.pos_iff_ne_zero.mp hkr)
    simp only [Nat.add_zero] at herr
    simp [retryAux, herr, hcl, Nat.sub_self]
  | succ k ih =>
    intro a r le acc e har hkr hfail herr hcl
    obtain ⟨r', rfl⟩ := Nat.exists_eq_succ_of_ne_zero (by omega : r ≠ 0)
    obtain ⟨e0, he0, hc0⟩ := hfail 0 (Nat.succ_pos k)
    simp only [Nat.add_zero] at he0
    have hne : (a == n - 1) = false := by
      simp only [beq_eq_false_iff_ne]; omega
    simp only [retryAux, he0, hc0, Bool.false_eq_true, if_false, hne]
    have step := ih (a + 1) r' (some e0) (acc + d * 2 ^ a) e (by omega) (by omega)
      (fun j hj => by
        obtain ⟨ej, hej, hcj⟩ := hfail (j + 1) (by omega)
        exact ⟨ej, by rwa [show a + 1 + j = a + (j + 1) by omega], hcj⟩)
      (by rwa [show a + 1 + k = a + (k + 1) by omega]) hcl
    have hix : a + 1 + k = a + (k + 1) := by omega
    rw [step, pow_two_delay_merge, hix]

private theorem retryAux_exhaust (fn : Nat → Except JsErr α) (n d : Nat) (r : Nat) :
    ∀ (a : Nat) (le : Option JsErr) (acc : Nat) (e : JsErr),
      a + r = n → 0 < r →
      (∀ j, j < r → ∃ ej, fn (a + j) = .error ej ∧ isClientError ej = false) →
      fn (n - 1) = .error e →
      retryAux fn n d a r le acc =
        ⟨.error (some e), n, acc + d * (2 ^ (n - 1) - 2 ^ a)⟩ := by
  induction r with
  | zero => intro a le acc e _ h; omega
  | succ r ih =>
    intro a le acc e har _ hfail hlast
    obtain ⟨e0, he0, hc0⟩ := hfail 0 (Nat.succ_pos r)
    simp only [Nat.add_zero] at he0
    rcases Nat.eq_zero_or_pos r with hr0 | hrpos
    · subst hr0
      have ha : a = n - 1 := by omega
      subst ha
      obtain rfl : e0 = e := by rw [he0] at hlast; exact Except.error.inj hlast
      simp only [retryAux, he0, hc0, Bool.false_eq_true, if_false, beq_self_eq_true, if_true,
        Nat.sub_self, Nat.mul_zero, Nat.add_zero]
      simp only [RetryOutcome.mk.injEq]
      exact ⟨by simp, by omega, by simp⟩
    · have hne : (a == n - 1) = false := by
        simp only [beq_eq_false_iff_ne]; omega
      simp only [retryAux, he0, hc0, Bool.false_eq_true, if_false, hne]
      have step := ih (a + 1) (some e0) (acc + d * 2 ^ a) e (by omega) hrpos
        (fun j hj => by
          obtain ⟨ej, hej, hcj⟩ := hfail (j + 1) (by omega)
          exact ⟨ej, by rwa [show a + 1 + j = a + (j + 1) by omega], hcj⟩) hlast
      rw [step]
      have hn1 : n - 1 = (a + 1) + (r - 1) := by omega
      rw [hn1, pow_two_delay_merge]

end RetryLemmas

/-- C3: for every operation `fn`, attempt bound `n` and initial delay `d`,
`retryWithBackoff` (1) propagates a 4xx-except-429 failure immediately after the
attempt that raised it, with no further attempt and no further backoff sleep;
(2) returns the value of the first succeeding attempt, having slept
`d*2^0 + … + d*2^(k-1) = d*(2^k - 1)` before the `k`-th attempt; and (3) when
all `n` attempts fail with transient errors, propagates the last error after
`n` attempts. -/
theorem retryWithBackoff_spec {α : Type} (fn : Nat → Except JsErr α) (n d : Nat) :
    (∀ k e, k < n → retriedThrough fn k → fn k = .error e → isClientError e = true →
      retryWithBackoff fn n d = ⟨.error (some e), k + 1, d * (2 ^ k - 1)⟩)
    ∧ (∀ k v, k < n → retriedThrough fn k → fn k = .ok v →
      retryWithBackoff fn n d = ⟨.ok v, k + 1, d * (2 ^ k - 1)⟩)
    ∧ (∀ e, 0 < n → retriedThrough fn n → fn (n - 1) = .error e →
      retryWithBackoff fn n d = ⟨.error (some e), n, d * (2 ^ (n - 1) - 1)⟩) := by
  refine ⟨fun k e hk hr he hc => ?_, fun k v hk hr he => ?_, fun e hn hr he => ?_⟩
  · have h := retryAux_clientError fn n d k 0 n none 0 e (by omega) hk
      (by simpa using hr) (by simpa using he) hc
    simpa [retryWithBackoff, pow_zero] using h
  · have h := retryAux_success fn n d k 0 n none 0 v (by omega) hk
      (by simpa using hr) (by simpa using he)
    simpa [retryWithBackoff, pow_zero] using h
  · have h := retryAux_exhaust fn n d n 0 none 0 e (by omega) hn
      (by simpa using hr) he
    simpa [retryWithBackoff, pow_zero] using h

/-- Operation used to witness the retry-policy theorem: fails once with an
HTTP 503, then succeeds. -/
def c3fn : Nat → Except JsErr Nat :=
  fun j => if j = 0 then .error ⟨some 503⟩ else .ok 42

theorem retryWithBackoff_spec_witness :
    retryWithBackoff c3fn 3 1000 = ⟨.ok 42, 2, 1000⟩ := by
  have h := (retryWithBackoff_spec c3fn 3 1000).2.1 1 42 (by omega)
    (fun j hj => by
      have hj0 : j = 0 := by omega
      exact ⟨⟨some 503⟩, by rw [hj0]; rfl, by rfl⟩)
    (by rfl)
  exact h

/-- Operation of the C4 scenario: fails with HTTP 429 on the first three
attempts, then succeeds. -/
def c4fn : Nat → Except JsErr String :=
  fun j => if j < 3 then .error ⟨some 429⟩ else .ok "success"

/-- C4 counterexample: with the default maximum attempt count 3 and initial
delay 1000, an operation that fails with 429 three times and then succeeds does
NOT return the success value through `retryWithBackoff`: the three attempts
exhaust the budget, the last 429 propagates, and the total backoff wait is
1000*(1+2) = 3000, not 1000*(1+2+4) = 7000. -/
theorem retry429_three_times_counterexample :
    retryWithBackoff c4fn 3 1000 = ⟨.error (some ⟨some 429⟩), 3, 3000⟩ ∧
    (retryWithBackoff c4fn 3 1000).result ≠ .ok "success" ∧
    (retryWithBackoff c4fn 3 1000).totalDelay ≠ 1000 * (1 + 2 + 4) := by
  refine ⟨rfl, fun h => Except.noConfusion h, by decide⟩

/-- Operation of the amended C4 scenario: fails with HTTP 429 on the first two
attempts, then succeeds. -/
def c4fnTwice : Nat → Except JsErr String :=
  fun j => if j < 2 then .error ⟨some 429⟩ else .ok "success"

/-- Operation failing every attempt with a fixed HTTP status. -/
def alwaysFail (s : Nat) : Nat → Except JsErr String :=
  fun _ => .error ⟨some s⟩

/-- C4 (amended): under the default maximum attempt count 3 with initial delay
`d`, an operation failing with a simulated HTTP 429 twice and then succeeding
returns the success value with total backoff wait `d*(1+2)` (failing 429 three
times instead exhausts the attempts and propagates the last 429); and an
operation failing with a simulated HTTP 400 is attempted exactly once. -/
theorem retry_default_params_amended (d : Nat) :
    retryWithBackoff c4fnTwice 3 d = ⟨.ok "success", 3, d * (1 + 2)⟩ ∧
    retryWithBackoff c4fn 3 d = ⟨.error (some ⟨some 429⟩), 3, d * (1 + 2)⟩ ∧
    (∀ s, 400 ≤ s → s < 500 → s ≠ 429 →
      retryWithBackoff (alwaysFail s) 3 d = ⟨.error (some ⟨some s⟩), 1, 0⟩) := by
  refine ⟨?_, ?_, fun s h1 h2 h3 => ?_⟩
  · have h := retryAux_success c4fnTwice 3 d 2 0 3 none 0 "success" (by omega) (by omega)
      (fun j hj => ⟨⟨some 429⟩, by
        have : j = 0 ∨ j = 1 := by omega
        rcases this with rfl | rfl <;> rfl, by rfl⟩)
      (by rfl)
    simpa [retryWithBackoff] using h
  · have h := retryAux_exhaust c4fn 3 d 3 0 none 0 ⟨some 429⟩ (by omega) (by omega)
      (fun j hj => ⟨⟨some 429⟩, by
        have : j = 0 ∨ j = 1 ∨ j = 2 := by omega
        rcases this with rfl | rfl | rfl <;> rfl, by rfl⟩)
      (by rfl)
    simpa [retryWithBackoff] using h
  · have h := retryAux_clientError (alwaysFail s) 3 d 0 0 3 none 0 ⟨some s⟩ (by omega) (by omega)
      (fun j hj => absurd hj (by omega)) (by rfl)
      (by simp only [isClientError]; simp only [Bool.and_eq_true, decide_eq_true_eq]; omega)
    simpa [retryWithBackoff] using h

theorem retry_default_params_amended_witness :
    retryWithBackoff c4fnTwice 3 1000 = ⟨.ok "success", 3, 3000⟩ ∧
    retryWithBackoff (alwaysFail 400) 3 1000 = ⟨.error (some ⟨some 400⟩), 1, 0⟩ := by
  obtain ⟨h1, _h2, h3⟩ := retry_default_params_amended 1000
  exact ⟨h1, h3 400 (by omega) (by omega) (by omega)⟩

/-! ### Smart routing service (`SmartRoutingService`) -/

/-- One entry of `this.routingRules`. -/
structure RouteCategory where
  name : String
  primarySources : List String
  secondarySources : List String
  keywords : List String
  deriving DecidableEq, Repr

/-- The `routingRules` table of `SmartRoutingService`, in declaration order
(JS `Object.entries` iterates string keys in insertion order). -/
def routingRules : List RouteCategory :=
  [ ⟨"trial", ["clinicaltrials"], ["pubmed", "openalex"],
      ["trial", "trials", "clinical trial", "study protocol",
       "recruiting", "enrollment", "NCT", "phase 1", "phase 2",
       "phase 3", "phase 4", "randomized controlled", "RCT",
       "intervention study", "treatment study", "placebo",
       "double blind", "multicenter trial"]⟩,
    ⟨"recent", ["openalex", "europepmc"], ["pubmed"],
      ["recent", "latest", "new", "emerging", "novel",
       "current", "2024", "2025", "up to date",
       "breakthrough", "advancement", "innovation"]⟩,
    ⟨"synthesis", ["pubmed", "europepmc"], ["openalex"],
      ["meta-analysis", "systematic review", "cochrane",
       "evidence synthesis", "pooled analysis", "literature review",
       "consensus", "guideline", "best practice"]⟩,
    ⟨"drug", ["pubmed", "clinicaltrials"], ["europepmc", "openalex"],
      ["drug", "medication", "pharmaceutical", "treatment",
       "therapy", "pharmacology", "dosage", "adverse effects",
       "side effects", "contraindication", "prescription"]⟩,
    ⟨"condition", ["pubmed", "openalex"], ["europepmc", "clinicaltrials"],
      ["disease", "condition", "syndrome", "disorder",
       "pathology", "diagnosis", "symptoms", "etiology",
       "epidemiology", "prevalence", "incidence"]⟩,
    ⟨"mechanism", ["openalex", "pubmed"], ["europepmc"],
      ["mechanism", "pathway", "molecular", "cellular",
       "biochemistry", "genetics", "pathophysiology",
       "receptor", "signaling", "gene expression",
       "protein", "enzyme", "metabolism"]⟩,
    ⟨"guidelines", ["pubmed"], ["openalex", "europepmc"],
      ["guideline", "recommendation", "protocol",
       "clinical practice", "standard of care",
       "treatment algorithm", "management",
       "diagnostic criteria", "screening"]⟩ ]

/-- JS `s.toLowerCase()` restricted to the ASCII strings this service handles
(the char-level map is used because it is kernel-computable, unlike
`String.toLower`). -/
def jsToLower (s : String) : String :=
  ⟨s.data.map Char.toLower⟩

/-- JS `s.split(sep)` for a one-character separator, on char lists:
`splitOnChar sep l` has one (possibly empty) segment per separator-delimited
run, so its length is the number of separators plus one, exactly as
`'a b'.split(' ').length` in JS. -/
def splitOnChar (sep : Char) : List Char → List (List Char)
  | [] => [[]]
  | c :: cs =>
    if c = sep then [] :: splitOnChar sep cs
    else
      match splitOnChar sep cs with
      | [] => [[c]]
      | w :: ws => (c :: w) :: ws

/-- Does `sub` occur as a contiguous run starting at some position of `l`? -/
def charListIncludes (sub : List Char) : List Char → Bool
  | [] => sub.isEmpty
  | c :: cs => sub.isPrefixOf (c :: cs) || charListIncludes sub cs

/-- JS `s.includes(sub)`: contiguous-substring containment (all strings in the
routing table are ASCII, so code-unit containment coincides with `Char`-list
containment). -/
def jsIncludes (s sub : String) : Bool :=
  charListIncludes sub.toList s.toList

/-- Inner loop of `analyzeQuery`: `scores[type] += keyword.split(' ').length`
for every keyword the lower-cased query contains.  Note the table's keywords
`NCT` and `RCT` are compared verbatim against the lower-cased query (as in the
source). -/
def keywordScore (lowerQuery : String) (keywords : List String) : Nat :=
  keywords.foldl
    (fun acc kw =>
      if jsIncludes lowerQuery kw then acc + (splitOnChar ' ' kw.data).length else acc) 0

/-- The `scores` object of `analyzeQuery`, as an association list in table
declaration order. -/
def categoryScores (query : String) : List (String × Nat) :=
  routingRules.map (fun c => (c.name, keywordScore (jsToLower query) c.keywords))

/-- Stable insertion step for the descending sort: an element is placed before
the first already-sorted element of strictly smaller or equal-later rank, i.e.
the earlier element of an equal-score pair stays first, exactly as JS's stable
`Array.prototype.sort` with comparator `(a, b) => b - a`. -/
def insertDesc (x : String × Nat) : List (String × Nat) → List (String × Nat)
  | [] => [x]
  | y :: ys => if y.2 ≤ x.2 then x :: y :: ys else y :: insertDesc x ys

/-- Stable descending sort by score (`.sort(([, a], [, b]) => b - a)`). -/
def sortDesc (l : List (String × Nat)) : List (String × Nat) :=
  l.foldr insertDesc []

/-- `sortedTypes` of `analyzeQuery`: sort descending by score, then keep the
strictly positive scores (`.filter(([, score]) => score > 0)`). -/
def sortedTypes (query : String) : List (String × Nat) :=
  (sortDesc (categoryScores query)).filter (fun p => 0 < p.2)

/-- The object returned by `SmartRoutingService.analyzeQuery`.
`alternativeTypes` is `none` on the general-fallback branch, whose returned
object has no such key. -/
structure RoutingDecision where
  queryType : String
  sources : List String
  strategy : String
  confidence : String
  reasoning : String
  alternativeTypes : Option (List String)
  deriving DecidableEq, Repr

/-- First-occurrence deduplication with an explicit seen-set, keyed by `key`:
the JS idiom `arr.filter(x => seen.has(k(x)) ? false : (seen.add(k(x)), true))`
and also `[...new Set(arr)]` (with `key = id`). -/
def dedupBy {α β : Type} [DecidableEq β] (key : α → β) : List α → List β → List α
  | [], _ => []
  | a :: rest, seen =>
    if key a ∈ seen then dedupBy key rest seen
    else a :: dedupBy key rest (key a :: seen)

/-- `SmartRoutingService.analyzeQuery` (routing-service source, lines 100-153). -/
def analyzeQuery (query : String) : RoutingDecision :=
  match sortedTypes query with
  | [] =>
    ⟨"general", ["pubmed", "europepmc", "openalex"], "comprehensive", "low",
      "No specific query type detected, using all sources", none⟩
  | best :: rest =>
    let conf := if best.2 ≥ 3 then "high" else if best.2 == 1 then "low" else "medium"
    let config := (routingRules.find? (fun c => c.name == best.1)).getD ⟨"", [], [], []⟩
    let srcs := config.primarySources ++ config.secondarySources
    ⟨best.1, dedupBy id srcs [], "balanced", conf,
      "Detected " ++ best.1 ++ " query (score: " ++ toString best.2 ++ "), using " ++
        String.intercalate ", " srcs,
      some ((rest.take 2).map (·.1))⟩

/-- Leftmost maximum of a nonempty score list `x :: l` (the earlier element of
any tie wins). -/
def firstMax1 (x : String × Nat) : List (String × Nat) → String × Nat
  | [] => x
  | y :: l => if (firstMax1 y l).2 ≤ x.2 then x else firstMax1 y l

/-- Leftmost maximum of a score list: the element the stable descending sort
puts first. -/
def firstMax : List (String × Nat) → Option (String × Nat)
  | [] => none
  | x :: l => some (firstMax1 x l)

theorem insertDesc_perm (x : String × Nat) (l : List (String × Nat)) :
    List.Perm (insertDesc x l) (x :: l) := by
  induction l with
  | nil => exact List.Perm.refl _
  | cons y ys ih =>
    by_cases h : y.2 ≤ x.2
    · simp only [insertDesc, h, if_true]
      exact List.Perm.refl _
    · simp only [insertDesc, h, if_false]
      exact (ih.cons y).trans (List.Perm.swap x y ys)

theorem sortDesc_perm (l : List (String × Nat)) : List.Perm (sortDesc l) l := by
  induction l with
  | nil => exact List.Perm.refl _
  | cons x xs ih =>
    exact (insertDesc_perm x (sortDesc xs)).trans (ih.cons x)

theorem firstMax1_mem (x : String × Nat) (l : List (String × Nat)) :
    firstMax1 x l ∈ x :: l := by
  induction l generalizing x with
  | nil => simp [firstMax1]
  | cons y ys ih =>
    by_cases h : (firstMax1 y ys).2 ≤ x.2
    · simp [firstMax1, h]
    · simp only [firstMax1, h, if_false]
      rcases List.mem_cons.mp (ih y) with hm | hm
      · simp [hm]
      · simp [List.mem_cons_of_mem, hm]

theorem firstMax1_is_max (x : String × Nat) (l : List (String × Nat)) :
    ∀ p ∈ x :: l, p.2 ≤ (firstMax1 x l).2 := by
  induction l generalizing x with
  | nil => simp [firstMax1]
  | cons y ys ih =>
    intro p hp
    by_cases h : (firstMax1 y ys).2 ≤ x.2
    · simp only [firstMax1, h, if_true]
      rcases List.mem_cons.mp hp with rfl | hm
      · exact le_refl _
      · exact le_trans (ih y p hm) h
    · simp only [firstMax1, h, if_false]
      rcases List.mem_cons.mp hp with rfl | hm
      · omega
      · exact ih y p hm

theorem firstMax1_all_le (x : String × Nat) (l : List (String × Nat))
    (h : ∀ p ∈ l, p.2 ≤ x.2) : firstMax1 x l = x := by
  induction l with
  | nil => rfl
  | cons y ys _ =>
    have hy : (firstMax1 y ys).2 ≤ x.2 :=
      h (firstMax1 y ys) (firstMax1_mem y ys)
    simp [firstMax1, hy]

theorem firstMax1_split (l1 : List (String × Nat)) (a x : String × Nat)
    (l2 : List (String × Nat)) (ha : a.2 < x.2) (hbefore : ∀ p ∈ l1, p.2 < x.2)
    (hl2 : firstMax1 x l2 = x) : firstMax1 a (l1 ++ x :: l2) = x := by
  induction l1 generalizing a with
  | nil =>
    simp only [List.nil_append, firstMax1, hl2]
    have : ¬ x.2 ≤ a.2 := by omega
    simp [this]
  | cons c l1' ih =>
    have hc : firstMax1 c (l1' ++ x :: l2) = x :=
      ih c (hbefore c (List.mem_cons_self c l1'))
        (fun q hq => hbefore q (List.mem_cons_of_mem c hq))
    simp only [List.cons_append, firstMax1, List.append_eq]
    rw [hc]
    have : ¬ x.2 ≤ a.2 := by omega
    simp [this]

theorem firstMax_of_split (l1 l2 : List (String × Nat)) (x : String × Nat)
    (hbefore : ∀ p ∈ l1, p.2 < x.2) (hrest : ∀ p ∈ l2, p.2 ≤ x.2) :
    firstMax (l1 ++ x :: l2) = some x := by
  have hl2 : firstMax1 x l2 = x := firstMax1_all_le x l2 hrest
  cases l1 with
  | nil => simp [firstMax, hl2]
  | cons a l1' =>
    have := firstMax1_split l1' a x l2 (hbefore a (List.mem_cons_self a l1'))
      (fun q hq => hbefore q (List.mem_cons_of_mem a hq)) hl2
    simp [firstMax, this]

theorem sortDesc_head (l : List (String × Nat)) : (sortDesc l).head? = firstMax l := by
  induction l with
  | nil => rfl
  | cons x xs ih =>
    show (insertDesc x (sortDesc xs)).head? = firstMax (x :: xs)
    cases hs : sortDesc xs with
    | nil =>
      have hxs : xs = [] := by
        have := (sortDesc_perm xs).length_eq
        rw [hs] at this
        exact List.eq_nil_of_length_eq_zero this.symm
      subst hxs
      rfl
    | cons y ys =>
      rw [hs] at ih
      cases xs with
      | nil => simp [sortDesc] at hs
      | cons z zs =>
        have hy : firstMax1 z zs = y := by
          simpa [firstMax, List.head?] using ih.symm
        show (insertDesc x (y :: ys)).head? = some (firstMax1 x (z :: zs))
        by_cases h : (firstMax1 z zs).2 ≤ x.2
        · have hy2 : y.2 ≤ x.2 := by rw [hy] at h; exact h
          simp [insertDesc, hy2, firstMax1, h, List.head?]
        · have hy2 : ¬ y.2 ≤ x.2 := by rw [hy] at h; exact h
          simp [insertDesc, hy2, firstMax1, h, List.head?, hy]

theorem foldl_score_eq_sum (p : String → Bool) (w : String → Nat) (l : List String) :
    l.foldl (fun acc kw => if p kw then acc + w kw else acc) 0 =
      ((l.filter p).map w).sum := by
  suffices h : ∀ acc, l.foldl (fun acc kw => if p kw then acc + w kw else acc) acc =
      acc + ((l.filter p).map w).sum by simpa using h 0
  induction l with
  | nil => intro acc; simp
  | cons kw rest ih =>
    intro acc
    by_cases hkw : p kw
    · rw [List.foldl_cons, if_pos hkw, List.filter_cons_of_pos hkw, List.map_cons,
        List.sum_cons, ih]
      omega
    · rw [List.foldl_cons, if_neg hkw, List.filter_cons_of_neg hkw]
      exact ih acc

/-- C5: `analyzeQuery` lower-cases the query, scores every category as the sum
of the word counts of its keyword phrases occurring as substrings of the
lower-cased query, and selects the category with the highest total score,
earlier-declared categories winning ties: whenever the declaration-ordered
score list splits as `l1 ++ (t, s) :: l2` with every score in `l1` strictly
below `s` and every score in `l2` at most `s` (i.e. `(t, s)` is the leftmost
maximum) and `s > 0`, the decision's `queryType` is `t`. -/
theorem analyzeQuery_selects_leftmost_max (q t : String) (s : Nat)
    (l1 l2 : List (String × Nat))
    (hsplit : categoryScores q = l1 ++ (t, s) :: l2)
    (hbefore : ∀ p ∈ l1, p.2 < s)
    (hrest : ∀ p ∈ l2, p.2 ≤ s)
    (hpos : 0 < s) :
    (analyzeQuery q).queryType = t ∧
    categoryScores q = routingRules.map (fun c =>
      (c.name, ((c.keywords.filter (fun kw => jsIncludes (jsToLower q) kw)).map
        (fun kw => (splitOnChar ' ' kw.data).length)).sum)) := by
  constructor
  · have hfm : firstMax (categoryScores q) = some (t, s) := by
      rw [hsplit]
      exact firstMax_of_split l1 l2 (t, s) hbefore hrest
    have hhead : (sortDesc (categoryScores q)).head? = some (t, s) := by
      rw [sortDesc_head]; exact hfm
    obtain ⟨tl, htl⟩ : ∃ tl, sortDesc (categoryScores q) = (t, s) :: tl := by
      cases hsd : sortDesc (categoryScores q) with
      | nil => rw [hsd] at hhead; simp [List.head?] at hhead
      | cons a tl =>
        rw [hsd] at hhead
        simp only [List.head?, Option.some.injEq] at hhead
        exact ⟨tl, by rw [hhead]⟩

    have hst : sortedTypes q = (t, s) :: tl.filter (fun p => 0 < p.2) := by
      unfold sortedTypes
      rw [htl]
      simp [List.filter_cons, hpos]
    unfold analyzeQuery
    rw [hst]
  · unfold categoryScores
    refine List.map_congr_left (fun c _ => ?_)
    have := foldl_score_eq_sum (fun kw => jsIncludes (jsToLower q) kw)
      (fun kw => (splitOnChar ' ' kw.data).length) c.keywords
    simpa [keywordScore] using this

theorem analyzeQuery_selects_leftmost_max_witness :
    (analyzeQuery "drug").queryType = "drug" :=
  (analyzeQuery_selects_leftmost_max "drug" "drug" 1
    [("trial", 0), ("recent", 0), ("synthesis", 0)]
    [("condition", 0), ("mechanism", 0), ("guidelines", 0)]
    (by decide) (by decide) (by decide) (by decide)).1

/-- C6: on a query whose lower-cased text contains no keyword of any category
(so every category scores zero — in particular the empty and whitespace-only
queries), `analyzeQuery` is a total function that returns the general fallback
decision: `queryType = "general"`, `confidence = "low"`, all three literature
sources, comprehensive strategy. -/
theorem analyzeQuery_general_fallback (q : String)
    (hzero : ∀ p ∈ categoryScores q, p.2 = 0) :
    analyzeQuery q = ⟨"general", ["pubmed", "europepmc", "openalex"], "comprehensive", "low",
      "No specific query type detected, using all sources", none⟩ := by
  have hst : sortedTypes q = [] := by
    unfold sortedTypes
    rw [List.filter_eq_nil_iff]
    intro p hp
    have := hzero p ((sortDesc_perm (categoryScores q)).mem_iff.mp hp)
    simp [this]
  unfold analyzeQuery
  rw [hst]

theorem analyzeQuery_general_fallback_witness :
    analyzeQuery "" = ⟨"general", ["pubmed", "europepmc", "openalex"], "comprehensive", "low",
      "No specific query type detected, using all sources", none⟩ ∧
    analyzeQuery "   " = ⟨"general", ["pubmed", "europepmc", "openalex"], "comprehensive", "low",
      "No specific query type detected, using all sources", none⟩ :=
  ⟨analyzeQuery_general_fallback "" (by decide),
   analyzeQuery_general_fallback "   " (by decide)⟩

/-! ### JS object model for the article records flowing through the pipeline -/

/-- Scalar JS value, for fields of the small nested records (links, open-access
locations, publications, quality tags). -/
inductive SVal where
  | undefined
  | null
  | bool (b : Bool)
  | num (n : Int)
  | str (s : String)
  deriving DecidableEq, Repr

/-- A JS value stored in one property of an article object.  `undefined` is the
value of an absent-or-`undefined` property read; `strList` and `recList` cover
the array shapes the pipeline produces. -/
inductive JVal where
  | undefined
  | null
  | bool (b : Bool)
  | num (n : Int)
  | str (s : String)
  | strList (l : List String)
  | recList (l : List (List (String × SVal)))
  deriving DecidableEq, Repr

/-- A JS object: insertion-ordered association list of distinct property keys. -/
abbrev Obj := List (String × JVal)

/-- Property read `o.k`: the stored value, or `undefined` when the key is
absent. -/
def getKey (o : Obj) (k : String) : JVal :=
  match o.find? (fun p => p.1 == k) with
  | some p => p.2
  | none => .undefined

/-- JS truthiness.  Arrays (`strList`, `recList`) are objects and always
truthy, even when empty. -/
def jsTruthy : JVal → Bool
  | .undefined => false
  | .null => false
  | .bool b => b
  | .num n => decide (n ≠ 0)
  | .str s => decide (s ≠ "")
  | .strList _ => true
  | .recList _ => true

/-- JS `a || b` on values. -/
def jsOr (v w : JVal) : JVal :=
  if jsTruthy v then v else w

/-- Spread-then-literal update `{...o, k: v}`: an existing key keeps its
position and gets the new value; a new key is appended. -/
def setKey (o : Obj) (k : String) (v : JVal) : Obj :=
  if o.any (fun p => p.1 == k) then o.map (fun p => if p.1 == k then (k, v) else p)
  else o ++ [(k, v)]

/-- `{...o, k1: v1, k2: v2, …}` for the listed literal fields, in order. -/
def setKeys (o : Obj) : List (String × JVal) → Obj
  | [] => o
  | (k, v) :: rest => setKeys (setKey o k v) rest

/-- The property keys of an object, in order. -/
def keysOf (o : Obj) : List String :=
  o.map (·.1)

/-- Underlying string of a string-valued property (the pipeline only ever
calls string methods on properties its own normalizers set to strings). -/
def strOfJVal : JVal → String
  | .str s => s
  | _ => ""

/-- Value of an `Option String` field of a raw provider payload: an absent
field reads as `undefined`. -/
def optStr : Option String → JVal
  | none => .undefined
  | some s => .str s

/-- JS template-literal interpolation `${x}` of a possibly-absent string. -/
def strTempl : Option String → String
  | some s => s
  | none => "undefined"

/-- JS `s.replace(pat, repl)` with a string pattern: replaces only the first
occurrence. -/
def replaceFirst (pat repl : List Char) : List Char → List Char
  | [] => if pat.isPrefixOf ([] : List Char) then repl else []
  | c :: cs =>
    if pat.isPrefixOf (c :: cs) then repl ++ (c :: cs).drop pat.length
    else c :: replaceFirst pat repl cs

/-! ### Multi-source `performSearch` (server.js lines 760-901) -/

/-- `esearchresult` of the PubMed esearch JSON. -/
structure EsearchResult where
  idlist : Option (List String)
  deriving DecidableEq, Repr

/-- Body of the PubMed esearch response (`searchResponse.data`). -/
structure EsearchResp where
  esearchresult : Option EsearchResult
  deriving DecidableEq, Repr

/-- One entry of a PubMed esummary record's `authors` array. -/
structure PMAuthor where
  name : String
  deriving DecidableEq, Repr

/-- One PubMed esummary record (`summaryResponse.data.result[uid]`). -/
structure PMSummaryRecord where
  uid : Option String
  title : Option String
  authors : Option (List PMAuthor)
  fulljournalname : Option String
  source : Option String
  pubdate : Option String
  elocationid : Option String
  deriving DecidableEq, Repr

/-- Body of the PubMed esummary response; `result` holds the records in
`Object.values` order (`undefined` when the key is missing, in which case
`Object.values` throws and the branch's catch yields `[]`). -/
structure EsummaryResp where
  result : Option (List PMSummaryRecord)
  deriving DecidableEq, Repr

/-- One Europe PMC result record. -/
structure EPMCArticle where
  pmid : Option String
  pmcid : Option String
  doi : Option String
  id : Option String
  title : Option String
  authorString : Option String
  journalTitle : Option String
  pubYear : Option String
  abstractText : Option String
  deriving DecidableEq, Repr

/-- `resultList` of the Europe PMC response. -/
structure EPMCResultList where
  result : Option (List EPMCArticle)
  deriving DecidableEq, Repr

/-- Body of the Europe PMC response. -/
structure EPMCResp where
  resultList : Option EPMCResultList
  deriving DecidableEq, Repr

/-- Article object built by the PubMed branch of `performSearch`
(lines 825-835), field for field and in literal order. -/
def pubmedArticleOf (r : PMSummaryRecord) : Obj :=
  [("pmid", optStr r.uid),
   ("title", jsOr (optStr r.title) (.str "No title")),
   ("authors", jsOr
      (match r.authors with
       | none => .undefined
       | some l => .str (String.intercalate ", " (l.map PMAuthor.name)))
      (.str "Unknown")),
   ("journal", jsOr (optStr r.fulljournalname) (jsOr (optStr r.source) (.str "Unknown"))),
   ("year", jsOr
      (match r.pubdate with
       | none => .undefined
       | some pd => .str ⟨(splitOnChar ' ' pd.data).headD []⟩)
      (.str "Unknown")),
   ("doi", jsOr (optStr r.elocationid) .null),
   ("abstract", .null),
   ("source", .str "PubMed"),
   ("url", .str ("https://pubmed.ncbi.nlm.nih.gov/" ++ strTempl r.uid ++ "/"))]

/-- URL built by the Europe PMC branch (lines 861-869). -/
def epmcUrl (a : EPMCArticle) : String :=
  if jsTruthy (optStr a.pmid) then
    "https://pubmed.ncbi.nlm.nih.gov/" ++ strTempl a.pmid ++ "/"
  else if jsTruthy (optStr a.pmcid) then
    "https://europepmc.org/article/PMC/" ++ ⟨replaceFirst "PMC".data [] (strTempl a.pmcid).data⟩
  else if jsTruthy (optStr a.doi) then
    "https://doi.org/" ++ strTempl a.doi
  else ""

/-- Article object built by the Europe PMC branch of `performSearch`
(lines 871-881). -/
def epmcArticleOf (a : EPMCArticle) : Obj :=
  [("pmid", jsOr (optStr a.pmid) .null),
   ("title", jsOr (optStr a.title) (.str "No title")),
   ("authors", jsOr (optStr a.authorString) (.str "Unknown")),
   ("journal", jsOr (optStr a.journalTitle) (.str "Unknown")),
   ("year", jsOr (optStr a.pubYear) (.str "Unknown")),
   ("doi", jsOr (optStr a.doi) .null),
   ("abstract", jsOr (optStr a.abstractText) .null),
   ("source", .str "Europe PMC"),
   ("url", .str (epmcUrl a))]

/-- PubMed branch of `performSearch` (lines 796-841).  The post-retry outcomes
of the two E-utilities calls are passed in explicitly; any thrown error inside
the branch — a failed call, `.idlist` of an `undefined` `esearchresult`
(line 812 has no `?.`), or `Object.values(undefined)` (line 825) — is caught
by the branch's own catch, which returns `[]`. -/
def performSearchPubMed (esearch : Except JsErr EsearchResp)
    (esummary : Except JsErr EsummaryResp) : List Obj :=
  match esearch with
  | .error _ => []
  | .ok resp =>
    match resp.esearchresult with
    | none => []
    | some er =>
      match er.idlist with
      | none => []
      | some ids =>
        if ids.isEmpty then []
        else
          match esummary with
          | .error _ => []
          | .ok sm =>
            match sm.result with
            | none => []
            | some records =>
              (records.filter (fun r => jsTruthy (optStr r.uid))).map pubmedArticleOf

/-- Europe PMC branch of `performSearch` (lines 844-888): on any thrown error
the catch returns `[]`; otherwise `(response.data.resultList?.result || [])`
is mapped to article objects. -/
def performSearchEPMC (outcome : Except JsErr EPMCResp) : List Obj :=
  match outcome with
  | .error _ => []
  | .ok resp =>
    let results := match resp.resultList with
      | none => []
      | some rl => rl.result.getD []
    results.map epmcArticleOf

/-- Dedup key of `performSearch` (line 896):
`article.pmid || article.title.toLowerCase()`.  A falsy `pmid` (absent, null
or the empty string) falls back to the lower-cased title; the JS `Set` stores
the raw key value, modelled as a `JVal`.  (Both branch normalizers always set
`title` to a non-empty string, so `strOfJVal` reads exactly the string
`toLowerCase` is called on.) -/
def dedupKey (a : Obj) : JVal :=
  if jsTruthy (getKey a "pmid") then getKey a "pmid"
  else .str (jsToLower (strOfJVal (getKey a "title")))

/-- Deduplication filter of `performSearch` (lines 894-900): keep an article
only when its key has not been seen yet. -/
def dedupArticles (l : List Obj) : List Obj :=
  dedupBy dedupKey l []

/-- `performSearch` (lines 792-901): PubMed's promise is pushed before Europe
PMC's, so after `Promise.all` and `flat()` the flattened sequence is PubMed's
articles followed by Europe PMC's, and the dedup filter keeps the first
occurrence of each key. -/
def performSearch (esearch : Except JsErr EsearchResp) (esummary : Except JsErr EsummaryResp)
    (epmc : Except JsErr EPMCResp) : List Obj :=
  dedupArticles (performSearchPubMed esearch esummary ++ performSearchEPMC epmc)

section DedupLemmas

variable {α β : Type} [DecidableEq β] (key : α → β)

theorem dedupBy_sublist : ∀ (l : List α) (seen : List β), (dedupBy key l seen).Sublist l := by
  intro l
  induction l with
  | nil => intro seen; exact List.Sublist.refl _
  | cons a rest ih =>
    intro seen
    by_cases h : key a ∈ seen
    · simp only [dedupBy, h, if_true]
      exact (ih seen).cons a
    · simp only [dedupBy, h, if_false]
      exact (ih (key a :: seen)).cons₂ a

theorem dedupBy_not_seen :
    ∀ (l : List α) (seen : List β) (b : α), b ∈ dedupBy key l seen → key b ∉ seen := by
  intro l
  induction l with
  | nil => intro seen b hb; simp [dedupBy] at hb
  | cons a rest ih =>
    intro seen b hb
    by_cases h : key a ∈ seen
    · simp only [dedupBy, h, if_true] at hb
      exact ih seen b hb
    · simp only [dedupBy, h, if_false] at hb
      rcases List.mem_cons.mp hb with rfl | hb'
      · exact h
      · have := ih (key a :: seen) b hb'
        exact fun hc => this (List.mem_cons_of_mem _ hc)

theorem dedupBy_keys_nodup :
    ∀ (l : List α) (seen : List β), ((dedupBy key l seen).map key).Nodup := by
  intro l
  induction l with
  | nil => intro seen; simp [dedupBy]
  | cons a rest ih =>
    intro seen
    by_cases h : key a ∈ seen
    · simp only [dedupBy, h, if_true]
      exact ih seen
    · simp only [dedupBy, h, if_false, List.map_cons, List.nodup_cons]
      refine ⟨fun hmem => ?_, ih (key a :: seen)⟩
      obtain ⟨b, hb, hkb⟩ := List.mem_map.mp hmem
      exact dedupBy_not_seen key rest (key a :: seen) b hb (by rw [hkb]; exact List.mem_cons_self _ _)

theorem dedupBy_covers :
    ∀ (l : List α) (seen : List β) (a : α), a ∈ l → key a ∉ seen →
      ∃ b ∈ dedupBy key l seen, key b = key a := by
  intro l
  induction l with
  | nil => intro seen a ha; simp at ha
  | cons c rest ih =>
    intro seen a ha hseen
    rcases List.mem_cons.mp ha with rfl | ha'
    · by_cases h : key a ∈ seen
      · exact absurd h hseen
      · simp only [dedupBy, h, if_false]
        exact ⟨a, List.mem_cons_self _ _, rfl⟩
    · by_cases h : key c ∈ seen
      · simp only [dedupBy, h, if_true]
        exact ih seen a ha' hseen
      · simp only [dedupBy, h, if_false]
        by_cases hac : key a = key c
        · exact ⟨c, List.mem_cons_self _ _, hac.symm⟩
        · obtain ⟨b, hb, hkb⟩ := ih (key c :: seen) a ha'
            (by simp only [List.mem_cons]; push_neg; exact ⟨hac, hseen⟩)
          exact ⟨b, List.mem_cons_of_mem _ hb, hkb⟩

theorem dedupBy_first_wins :
    ∀ (l1 : List α) (a : α) (l2 : List α) (seen : List β),
      (∀ b ∈ l1, key b ≠ key a) → key a ∉ seen →
      a ∈ dedupBy key (l1 ++ a :: l2) seen := by
  intro l1
  induction l1 with
  | nil =>
    intro a l2 seen _ hseen
    simp only [List.nil_append, dedupBy, hseen, if_false]
    exact List.mem_cons_self _ _
  | cons c l1' ih =>
    intro a l2 seen hne hseen
    by_cases h : key c ∈ seen
    · simp only [List.cons_append, dedupBy, h, if_true]
      exact ih a l2 seen (fun b hb => hne b (List.mem_cons_of_mem c hb)) hseen
    · simp only [List.cons_append, dedupBy, h, if_false]
      refine List.mem_cons_of_mem c (ih a l2 (key c :: seen)
        (fun b hb => hne b (List.mem_cons_of_mem c hb)) ?_)
      simp only [List.mem_cons]
      push_neg
      exact ⟨fun hc => hne c (List.mem_cons_self c l1') hc.symm, hseen⟩

end DedupLemmas

/-- C1 counterexample data: PubMed esummary record with uid 1, shared with
Europe PMC. -/
def cRec1 : PMSummaryRecord :=
  ⟨some "1", some "Aspirin in stroke prevention", some [⟨"Smith J"⟩, ⟨"Doe A"⟩],
   some "The Lancet", some "Lancet", some "2020 Jan 15", some "10.1000/aspirin"⟩

/-- C1 counterexample data: PubMed-only record with uid 2. -/
def cRec2 : PMSummaryRecord :=
  ⟨some "2", some "Beta blockers in heart failure", some [⟨"Lee K"⟩],
   some "BMJ", some "BMJ", some "2021 Mar 2", none⟩

/-- C1 counterexample data: Europe PMC record sharing pmid 1 (another version
of the same article). -/
def cEArt1 : EPMCArticle :=
  ⟨some "1", some "PMC11", some "10.1000/aspirin", some "1",
   some "Aspirin in stroke prevention (EPMC version)", some "Smith J, Doe A.",
   some "Lancet", some "2020", some "An abstract."⟩

/-- C1 counterexample data: Europe PMC record with its own pmid 3. -/
def cEArt2 : EPMCArticle :=
  ⟨some "3", none, some "10.1000/statin", some "3",
   some "Statins in primary prevention", some "Park H.",
   some "JAMA", some "2019", none⟩

/-- C1 counterexample: two source-adapter outputs that share one
`sourceId`-keyed article and carry one distinct article each — PubMed returns
the records with uids 1 and 2, Europe PMC returns pmids 1 and 3 — merge to a
deduplicated list of THREE articles, not two: the shared article (PubMed's
higher-priority version) plus each source's distinct article. -/
theorem performSearch_scenario_counterexample :
    performSearch (.ok ⟨some ⟨some ["1", "2"]⟩⟩) (.ok ⟨some [cRec1, cRec2]⟩)
        (.ok ⟨some ⟨some [cEArt1, cEArt2]⟩⟩) =
      [pubmedArticleOf cRec1, pubmedArticleOf cRec2, epmcArticleOf cEArt2] ∧
    (performSearch (.ok ⟨some ⟨some ["1", "2"]⟩⟩) (.ok ⟨some [cRec1, cRec2]⟩)
        (.ok ⟨some ⟨some [cEArt1, cEArt2]⟩⟩)).length ≠ 2 := by
  exact ⟨by decide, by decide⟩

/-- C1 (amended): the multi-source merge deduplicates by `pmid` when truthy,
else by the lower-cased title (that is the definition of `dedupKey`), keeping
only the first occurrence of each key in source-priority order: the result is
a subsequence of the concatenated input, its keys are pairwise distinct, every
input key is represented, and the first article carrying a given key — the
higher-priority source's version — itself survives.  In the concrete scenario
of two outputs sharing one `sourceId`-keyed article and one distinct article
each, the merged result contains exactly THREE articles: the shared one (in
the higher-priority version) and the two distinct ones. -/
theorem performSearch_dedup_amended :
    (∀ l : List Obj, (dedupArticles l).Sublist l)
    ∧ (∀ l : List Obj, ((dedupArticles l).map dedupKey).Nodup)
    ∧ (∀ (l : List Obj) (a : Obj), a ∈ l → ∃ b ∈ dedupArticles l, dedupKey b = dedupKey a)
    ∧ (∀ (l1 : List Obj) (a : Obj) (l2 : List Obj),
        (∀ b ∈ l1, dedupKey b ≠ dedupKey a) → a ∈ dedupArticles (l1 ++ a :: l2))
    ∧ (∀ s1 d1 s2 d2 : Obj, dedupKey s1 = dedupKey s2 →
        dedupKey d1 ≠ dedupKey s1 → dedupKey d2 ≠ dedupKey s1 → dedupKey d2 ≠ dedupKey d1 →
        dedupArticles ([s1, d1] ++ [s2, d2]) = [s1, d1, d2]) := by
  refine ⟨fun l => dedupBy_sublist dedupKey l [],
    fun l => dedupBy_keys_nodup dedupKey l [],
    fun l a ha => dedupBy_covers dedupKey l [] a ha (by simp),
    fun l1 a l2 hne => dedupBy_first_wins dedupKey l1 a l2 [] hne (by simp),
    fun s1 d1 s2 d2 h12 hd1 hd2 hdd => ?_⟩
  simp only [dedupArticles, List.cons_append, List.nil_append, dedupBy, List.mem_cons,
    List.mem_singleton, List.not_mem_nil]
  rw [if_neg (by simp), if_neg (by simpa using hd1),
    if_pos (by simp [h12.symm]), if_neg (by simp [hd2, hdd])]

theorem performSearch_dedup_amended_witness :
    pubmedArticleOf cRec1 ∈
      dedupArticles ([] ++ pubmedArticleOf cRec1 :: [pubmedArticleOf cRec2]) ∧
    dedupArticles ([pubmedArticleOf cRec1, pubmedArticleOf cRec2] ++
        [epmcArticleOf cEArt1, epmcArticleOf cEArt2]) =
      [pubmedArticleOf cRec1, pubmedArticleOf cRec2, epmcArticleOf cEArt2] :=
  ⟨(performSearch_dedup_amended).2.2.2.1 [] (pubmedArticleOf cRec1) [pubmedArticleOf cRec2]
      (by intro b hb; exact absurd hb (by simp)),
   (performSearch_dedup_amended).2.2.2.2 (pubmedArticleOf cRec1) (pubmedArticleOf cRec2)
      (epmcArticleOf cEArt1) (epmcArticleOf cEArt2)
      (by decide) (by decide) (by decide) (by decide)⟩

/-! ### Cached PubMed search (`/api/search-pubmed`, server.js lines 87-355) -/

/-- A JS exception escaping `performPubMedSearch`: either the re-thrown HTTP
error of a failed E-utilities call, or the `ReferenceError` raised by
evaluating the identifier `res`, which is not bound inside that extracted
function. -/
inductive JsException where
  | refErrorResJson
  | http (e : JsErr)
  deriving DecidableEq, Repr

/-- `performPubMedSearch` (lines 130-355) up to the empty-id-list check.  The
post-retry esearch outcome is passed in; `cont` abstracts steps 2-4 (esummary,
efetch, XML abstract parsing, CrossRef/Unpaywall enrichment), which run only
on a non-empty id list and are irrelevant to the empty-result claim.  Line 202
reads `searchResponse.data.esearchresult?.idlist || []`; when the id list is
empty, line 205 executes `return res.json({ articles: [] })` — but `res` is
the route handler's response object and is NOT in scope inside this extracted
function (its parameters are `query, filters`), so evaluating `res` throws a
`ReferenceError`, which the function's catch block re-throws (line 353). -/
def performPubMedSearch (esearch : Except JsErr EsearchResp)
    (cont : List String → Except JsException (List Obj)) : Except JsException (List Obj) :=
  match esearch with
  | .error e => .error (.http e)
  | .ok resp =>
    let ids := match resp.esearchresult with
      | none => []
      | some er => er.idlist.getD []
    if ids.isEmpty then .error .refErrorResJson
    else cont ids

/-- HTTP status the `/api/search-pubmed` handler responds with (lines 101-125)
for a given outcome of the cached search: 200 on success, otherwise the
classification of the caught error — 429 stays 429, another 4xx is forwarded,
and everything else (including a `ReferenceError`, which has neither `code`
nor `response`) becomes 500. -/
def searchPubMedStatus (r : Except JsException (List Obj)) : Nat :=
  match r with
  | .ok _ => 200
  | .error .refErrorResJson => 500
  | .error (.http e) =>
    match e.status with
    | some s => if s == 429 then 429 else if 400 ≤ s ∧ s < 500 then s else 500
    | none => 500

/-- C2: what the code actually does on a query that legitimately matches
nothing.  The multi-source `performSearch` indeed returns an empty list as a
success when every source yields nothing (both its branches return `[]` and
the merge of nothing is `[]`).  But the cached PubMed search does NOT: when
the esearch id list is empty, `performPubMedSearch` throws the
`ReferenceError` of the out-of-scope `res` (line 205), so the endpoint answers
500 instead of a 200 with `{ articles: [] }` — the claim describes the intent,
the code has a slip. -/
theorem performPubMedSearch_empty_ids_behavior :
    (∀ cont, performPubMedSearch (.ok ⟨some ⟨some []⟩⟩) cont = .error .refErrorResJson ∧
      searchPubMedStatus (performPubMedSearch (.ok ⟨some ⟨some []⟩⟩) cont) = 500) ∧
    (∀ esummary, performSearch (.ok ⟨some ⟨some []⟩⟩) esummary (.ok ⟨some ⟨some []⟩⟩) = []) := by
  refine ⟨fun cont => ⟨rfl, rfl⟩, fun esummary => ?_⟩
  cases esummary <;> rfl

/-! ### Object-update lemmas -/

theorem getKey_cons (p : String × JVal) (o : Obj) (k' : String) :
    getKey (p :: o) k' = cond (p.1 == k') p.2 (getKey o k') := by
  cases hb : (p.1 == k') <;> simp [getKey, List.find?, hb]

theorem getKey_mapReplace (o : Obj) (k : String) (v : JVal) (k' : String) (h : k' ≠ k) :
    getKey (o.map (fun p => if p.1 == k then (k, v) else p)) k' = getKey o k' := by
  induction o with
  | nil => rfl
  | cons p o' ih =>
    rw [List.map_cons, getKey_cons, getKey_cons]
    by_cases hp : p.1 = k
    · have hite : (if p.1 == k then ((k, v) : String × JVal) else p) = (k, v) := by
        simp [hp]
      rw [hite]
      have hb1 : (((k, v) : String × JVal).1 == k') = false :=
        beq_eq_false_iff_ne.mpr fun hc => h hc.symm
      have hb2 : (p.1 == k') = false :=
        beq_eq_false_iff_ne.mpr (by rw [hp]; exact fun hc => h hc.symm)
      rw [hb1, hb2, Bool.cond_false, Bool.cond_false, ih]
    · have hite : (if p.1 == k then ((k, v) : String × JVal) else p) = p := by
        simp [hp]
      rw [hite, ih]

theorem getKey_append_single_ne (o : Obj) (k : String) (v : JVal) (k' : String) (h : k' ≠ k) :
    getKey (o ++ [(k, v)]) k' = getKey o k' := by
  unfold getKey
  rw [List.find?_append]
  cases hfind : o.find? (fun p => p.1 == k') with
  | some p => rfl
  | none =>
    have : ((k, v).1 == k') = false := by simpa using fun hc => h hc.symm
    simp [List.find?, this]

theorem getKey_setKey_ne (o : Obj) (k : String) (v : JVal) (k' : String) (h : k' ≠ k) :
    getKey (setKey o k v) k' = getKey o k' := by
  unfold setKey
  by_cases hany : o.any (fun p => p.1 == k)
  · rw [if_pos hany]; exact getKey_mapReplace o k v k' h
  · rw [if_neg hany]; exact getKey_append_single_ne o k v k' h

theorem keysOf_setKey (o : Obj) (k : String) (v : JVal) :
    keysOf (setKey o k v) = keysOf o ∨ keysOf (setKey o k v) = keysOf o ++ [k] := by
  unfold setKey
  by_cases hany : o.any (fun p => p.1 == k)
  · left
    rw [if_pos hany]
    unfold keysOf
    rw [List.map_map]
    refine List.map_congr_left (fun p _ => ?_)
    by_cases hp : p.1 == k
    · have hpk : p.1 = k := by simpa using hp
      simp [Function.comp, hp, hpk]
    · simp [Function.comp, hp]
  · right
    rw [if_neg hany]
    simp [keysOf]

theorem mem_keysOf_setKey (o : Obj) (k : String) (v : JVal) (k' : String)
    (h : k' ∈ keysOf o) : k' ∈ keysOf (setKey o k v) := by
  rcases keysOf_setKey o k v with hk | hk
  · rw [hk]; exact h
  · rw [hk]; exact List.mem_append_left _ h

theorem getKey_setKeys_not_mem (kvs : List (String × JVal)) :
    ∀ (o : Obj) (k' : String), k' ∉ kvs.map Prod.fst →
      getKey (setKeys o kvs) k' = getKey o k' := by
  induction kvs with
  | nil => intro o k' _; rfl
  | cons kv rest ih =>
    intro o k' h
    obtain ⟨k, v⟩ := kv
    simp only [List.map_cons, List.mem_cons] at h
    push_neg at h
    show getKey (setKeys (setKey o k v) rest) k' = getKey o k'
    rw [ih (setKey o k v) k' h.2]
    exact getKey_setKey_ne o k v k' h.1

theorem mem_keysOf_setKeys (kvs : List (String × JVal)) :
    ∀ (o : Obj) (k' : String), k' ∈ keysOf o → k' ∈ keysOf (setKeys o kvs) := by
  induction kvs with
  | nil => intro o k' h; exact h
  | cons kv rest ih =>
    intro o k' h
    obtain ⟨k, v⟩ := kv
    exact ih (setKey o k v) k' (mem_keysOf_setKey o k v k' h)

/-! ### CrossRef enrichment (`CrossRefService`, server.js lines 1746-1903) -/

/-- Scalar field value of a raw nested record. -/
def svalOfOpt : Option String → SVal
  | none => .undefined
  | some s => .str s

/-- One entry of a CrossRef `license` array (`URL` field). -/
structure CRLicense where
  url : Option String
  deriving DecidableEq, Repr

/-- One entry of a CrossRef `funder` array. -/
structure CRFunder where
  name : String
  deriving DecidableEq, Repr

/-- One entry of a CrossRef `author` array (`ORCID` field). -/
structure CRAuthor where
  orcid : Option String
  deriving DecidableEq, Repr

/-- One entry of a CrossRef `link` array. -/
structure CRLink where
  url : Option String
  contentType : Option String
  intendedApplication : Option String
  deriving DecidableEq, Repr

/-- The `message` object of a CrossRef works response, with the fields
`enrichArticle` reads (`is-referenced-by-count`, `abstract`, `publisher`,
`license`, `funder`, `author`, `link`). -/
structure CRData where
  isReferencedByCount : Option Int
  abstract : Option String
  publisher : Option String
  license : Option (List CRLicense)
  funder : Option (List CRFunder)
  author : Option (List CRAuthor)
  link : Option (List CRLink)
  deriving DecidableEq, Repr

/-- Scanner for one regex match of `<[^>]+>` after an opening `<`: at least
one non-`>` character, then `>`; returns the remainder after the tag, or
`none` when there is no match at this position. -/
def dropToGt : List Char → Option (List Char)
  | [] => none
  | c :: cs => if c = '>' then some cs else dropToGt cs

/-- Body check of `<[^>]+>`: the first body character must not be `>`. -/
def tagRemainder : List Char → Option (List Char)
  | [] => none
  | c :: cs => if c = '>' then none else dropToGt cs

/-- `.replace(/<[^>]+>/g, '')`: drop every tag match, keep everything else.
Fuel-driven so the kernel can evaluate it; `fuel = length of the list` always
suffices because every step consumes at least one character. -/
def stripTagsFuel : Nat → List Char → List Char
  | 0, l => l
  | _, [] => []
  | fuel + 1, c :: cs =>
    if c = '<' then
      match tagRemainder cs with
      | some rest => stripTagsFuel fuel rest
      | none => c :: stripTagsFuel fuel cs
    else c :: stripTagsFuel fuel cs

/-- `.replace(pat, repl)` with a global regex of a fixed non-empty string:
replace every occurrence, scanning left to right. -/
def replaceAllFuel (pat repl : List Char) : Nat → List Char → List Char
  | 0, l => l
  | _, [] => []
  | fuel + 1, c :: cs =>
    if pat.isPrefixOf (c :: cs) then
      repl ++ replaceAllFuel pat repl fuel ((c :: cs).drop pat.length)
    else c :: replaceAllFuel pat repl fuel cs

/-- String-level wrapper for `replaceAllFuel`. -/
def replaceAll (pat repl s : String) : String :=
  ⟨replaceAllFuel pat.data repl.data s.data.length s.data⟩

/-- JS `String.prototype.trim` on the ASCII whitespace that occurs here. -/
def isJsWhitespace (c : Char) : Bool :=
  c = ' ' || c = '\t' || c = '\n' || c = '\r'

/-- `s.trim()`. -/
def trimString (s : String) : String :=
  ⟨((s.data.dropWhile isJsWhitespace).reverse.dropWhile isJsWhitespace).reverse⟩

/-- `CrossRefService.extractAbstract` (lines 1858-1869): `null` for a falsy
abstract, else strip JATS XML tags, decode the three entities and trim. -/
def extractAbstract (data : CRData) : JVal :=
  if ¬ jsTruthy (optStr data.abstract) then .null
  else
    let ab := strTempl data.abstract
    .str (trimString (replaceAll "&amp;" "&" (replaceAll "&gt;" ">" (replaceAll "&lt;" "<"
      ⟨stripTagsFuel ab.data.length ab.data⟩))))

/-- `CrossRefService.extractOrcids` (lines 1876-1882): `[]` without an
`author` array, else the truthy `ORCID` values. -/
def extractOrcids (data : CRData) : JVal :=
  match data.author with
  | none => .strList []
  | some authors =>
    .strList ((authors.filter (fun a => jsTruthy (optStr a.orcid))).map (fun a => a.orcid.getD ""))

/-- The literal fields of the enriched object built by `enrichArticle`
(lines 1783-1802), in literal order, from the fetched CrossRef `data` and the
input `article`. -/
def crEnrichFields (article : Obj) (data : CRData) : List (String × JVal) :=
  [("citationCount", jsOr
      (match data.isReferencedByCount with
       | none => .undefined
       | some n => .num n)
      (jsOr (getKey article "citationCount") (.num 0))),
   ("abstract", jsOr (getKey article "abstract") (extractAbstract data)),
   ("publisher", jsOr (optStr data.publisher) (getKey article "publisher")),
   ("license", match data.license with
      | none => .null
      | some lst =>
        match lst.head? with
        | none => .undefined
        | some lic => optStr lic.url),
   ("funding", jsOr
      (match data.funder with
       | none => .undefined
       | some fs => .str (String.intercalate ", " (fs.map CRFunder.name)))
      .null),
   ("orcids", extractOrcids data),
   ("fullTextLinks", match data.link with
      | none => .recList []
      | some links => .recList (links.map (fun li =>
          [("url", svalOfOpt li.url), ("contentType", svalOfOpt li.contentType),
           ("intendedApplication", svalOfOpt li.intendedApplication)])))]

/-- `CrossRefService.enrichArticle` (lines 1766-1816).  The outcome of the
axios GET for the article's DOI is supplied by `env`; with a falsy DOI the
article is returned as-is (line 1769), on a thrown error the catch returns the
original article (line 1814), and on success the spread-plus-literals object
is returned. -/
def crEnrichArticle (env : String → Except JsErr CRData) (article : Obj) : Obj :=
  if jsTruthy (getKey article "doi") then
    match env (strOfJVal (getKey article "doi")) with
    | .error _ => article
    | .ok data => setKeys article (crEnrichFields article data)
  else article

/-! ### Unpaywall enrichment (`UnpaywallService`, unpaywall.service.js) -/

/-- One Unpaywall open-access location (`url`, `url_for_pdf`,
`url_for_landing_page`, `version`, `license`, `host_type`). -/
structure UPLocation where
  url : Option String
  urlForPdf : Option String
  urlForLandingPage : Option String
  version : Option String
  license : Option String
  hostType : Option String
  deriving DecidableEq, Repr

/-- Body of an Unpaywall DOI response, with the fields `checkFullText` reads
(`best_oa_location`, `is_oa`, `oa_status`, `oa_locations`). -/
structure UPData where
  bestOaLocation : Option UPLocation
  isOa : Option Bool
  oaStatus : Option String
  oaLocations : Option (List UPLocation)
  deriving DecidableEq, Repr

/-- The `typeMap` of `UnpaywallService.getOAType` (lines 122-132). -/
def upTypeMap (status : String) : Option String :=
  if status = "gold" then some "Gold OA (Published OA)"
  else if status = "hybrid" then some "Hybrid OA (OA in subscription journal)"
  else if status = "bronze" then some "Bronze OA (Free to read, no license)"
  else if status = "green" then some "Green OA (Repository version)"
  else if status = "closed" then some "Closed Access"
  else none

/-- `UnpaywallService.getOAType`: `typeMap[status] || status || 'Unknown'`. -/
def getOAType (data : UPData) : JVal :=
  jsOr
    (match data.oaStatus with
     | none => .undefined
     | some st => jsOr (optStr (upTypeMap st)) (.str st))
    (.str "Unknown")

/-- The literal fields of the enriched object `checkFullText` builds when a
best open-access location exists (lines 39-57), in literal order. -/
def upEnrichFields (article : Obj) (data : UPData) (bestOA : UPLocation) :
    List (String × JVal) :=
  [("fullTextAvailable", .bool true),
   ("fullTextUrl", jsOr (optStr bestOA.urlForPdf)
      (jsOr (optStr bestOA.urlForLandingPage) (optStr bestOA.url))),
   ("fullTextPdfUrl", optStr bestOA.urlForPdf),
   ("fullTextLandingUrl", optStr bestOA.urlForLandingPage),
   ("openAccessType", getOAType data),
   ("license", jsOr (optStr bestOA.license) (getKey article "license")),
   ("isOpenAccess", jsOr
      (match data.isOa with
       | none => .undefined
       | some b => .bool b)
      (.bool false)),
   ("oaStatus", optStr data.oaStatus),
   ("allOALocations", match data.oaLocations with
      | none => .recList []
      | some locs => .recList (locs.map (fun loc =>
          [("url", svalOfOpt loc.url), ("pdfUrl", svalOfOpt loc.urlForPdf),
           ("version", svalOfOpt loc.version), ("license", svalOfOpt loc.license),
           ("hostType", svalOfOpt loc.hostType)])))]

/-- `UnpaywallService.checkFullText` (lines 21-79).  With a falsy DOI it
returns `{ ...article, fullTextAvailable: false }` (line 24); the same on a
thrown error (line 77); with a best open-access location it returns the
enriched spread; otherwise `{ ...article, fullTextAvailable: false,
isOpenAccess: false, oaStatus: 'closed' }` (lines 62-67). -/
def upCheckFullText (env : String → Except JsErr UPData) (article : Obj) : Obj :=
  if jsTruthy (getKey article "doi") then
    match env (strOfJVal (getKey article "doi")) with
    | .error _ => setKey article "fullTextAvailable" (.bool false)
    | .ok data =>
      match data.bestOaLocation with
      | some bestOA => setKeys article (upEnrichFields article data bestOA)
      | none => setKeys article
          [("fullTextAvailable", .bool false),
           ("isOpenAccess", .bool false),
           ("oaStatus", .str "closed")]
  else setKey article "fullTextAvailable" (.bool false)

/-- Batched loop shared by `CrossRefService.enrichArticles` (lines 1834-1845,
batch size 10, 200ms pause) and `UnpaywallService.checkMultipleArticles`
(lines 97-108, batch size 10, 100ms pause): slice ten articles, map the
per-article enrichment over the batch via `Promise.all`, append the batch
results, continue with the rest. -/
def processBatchesGo (f : Obj → Obj) : Nat → List Obj → List Obj
  | 0, _ => []
  | _, [] => []
  | fuel + 1, a :: rest => ((a :: rest).take 10).map f ++ processBatchesGo f fuel ((a :: rest).drop 10)

/-- Entry point: the loop index advances by the batch size, so the number of
iterations is bounded by the list length, which is passed as fuel. -/
def processBatches (f : Obj → Obj) (l : List Obj) : List Obj :=
  processBatchesGo f l.length l

/-- `CrossRefService.enrichArticles` (lines 1823-1851): empty input is
returned as-is, otherwise the batched per-article enrichment runs. -/
def crEnrichArticles (env : String → Except JsErr CRData) (articles : List Obj) : List Obj :=
  if articles.isEmpty then articles
  else processBatches (crEnrichArticle env) articles

/-- `UnpaywallService.checkMultipleArticles` (lines 86-115). -/
def upCheckMultipleArticles (env : String → Except JsErr UPData) (articles : List Obj) :
    List Obj :=
  if articles.isEmpty then articles
  else processBatches (upCheckFullText env) articles

theorem processBatchesGo_eq_map (f : Obj → Obj) :
    ∀ (n : Nat) (l : List Obj), l.length ≤ n → processBatchesGo f n l = l.map f := by
  intro n
  induction n with
  | zero =>
    intro l hl
    have : l = [] := List.length_eq_zero.mp (by omega)
    subst this
    rfl
  | succ n ih =>
    intro l hl
    cases l with
    | nil => rfl
    | cons a rest =>
      rw [processBatchesGo, ih ((a :: rest).drop 10)
        (by simp only [List.length_drop, List.length_cons] at hl ⊢; omega)]
      rw [← List.map_append, List.take_append_drop]

theorem processBatches_eq_map (f : Obj → Obj) (l : List Obj) :
    processBatches f l = l.map f :=
  processBatchesGo_eq_map f l.length l (le_refl _)

/-- Environment in which every CrossRef lookup fails with a transport error. -/
def cNoCREnv : String → Except JsErr CRData :=
  fun _ => .error ⟨none⟩

/-- Environment in which every Unpaywall lookup fails with a transport error. -/
def cNoUPEnv : String → Except JsErr UPData :=
  fun _ => .error ⟨none⟩

/-- Test article lacking a DOI but carrying a prior `fullTextAvailable`. -/
def c7Article : Obj :=
  [("pmid", .str "1"), ("title", .str "Aspirin"), ("fullTextAvailable", .bool true)]

/-- Test article lacking a DOI and lacking `fullTextAvailable`. -/
def c7bArticle : Obj :=
  [("title", .str "No doi here")]

/-- C7 counterexample: for an article without a DOI, Unpaywall's
`checkFullText` does NOT return it field-for-field unchanged — it returns
`{ ...article, fullTextAvailable: false }`, overwriting a previously true
`fullTextAvailable` (and adding the key when it was absent).  CrossRef's
`enrichArticle` does return the article unchanged. -/
theorem checkFullText_noDoi_counterexample :
    upCheckFullText cNoUPEnv c7Article ≠ c7Article ∧
    upCheckFullText cNoUPEnv c7Article =
      [("pmid", .str "1"), ("title", .str "Aspirin"), ("fullTextAvailable", .bool false)] ∧
    upCheckFullText cNoUPEnv c7bArticle ≠ c7bArticle ∧
    crEnrichArticle cNoCREnv c7Article = c7Article :=
  ⟨by decide, by decide, by decide, by decide⟩

/-- C7 (amended): for every article whose `doi` is falsy (absent, null or
empty), CrossRef's `enrichArticle` returns the article unchanged, and
Unpaywall's `checkFullText` returns it with every field unchanged except
`fullTextAvailable`, which is set to `false`. -/
theorem enrich_noDoi_amended (crEnv : String → Except JsErr CRData)
    (upEnv : String → Except JsErr UPData) (a : Obj)
    (h : jsTruthy (getKey a "doi") = false) :
    crEnrichArticle crEnv a = a ∧
    upCheckFullText upEnv a = setKey a "fullTextAvailable" (.bool false) := by
  unfold crEnrichArticle upCheckFullText
  rw [h]
  exact ⟨if_neg (by simp), if_neg (by simp)⟩

theorem enrich_noDoi_amended_witness :
    crEnrichArticle cNoCREnv c7bArticle = c7bArticle ∧
    upCheckFullText cNoUPEnv c7bArticle = setKey c7bArticle "fullTextAvailable" (.bool false) :=
  enrich_noDoi_amended cNoCREnv cNoUPEnv c7bArticle (by decide)

/-- The property keys `enrichArticle`'s object literal writes. -/
def crWrittenKeys : List String :=
  ["citationCount", "abstract", "publisher", "license", "funding", "orcids", "fullTextLinks"]

/-- The property keys `checkFullText`'s object literals can write. -/
def upWrittenKeys : List String :=
  ["fullTextAvailable", "fullTextUrl", "fullTextPdfUrl", "fullTextLandingUrl",
   "openAccessType", "license", "isOpenAccess", "oaStatus", "allOALocations"]

/-- C10: the batched enrichment operations return exactly one output per input
in the same order — `enrichArticles`/`checkMultipleArticles` equal the map of
the per-article enrichment — and each per-article enrichment only adds or
overwrites its enrichment fields: every key of the input article is still a
key of the output, and every property outside the written enrichment fields
keeps its input value. -/
theorem enrichArticles_length_order_frame (crEnv : String → Except JsErr CRData)
    (upEnv : String → Except JsErr UPData) :
    (∀ l, crEnrichArticles crEnv l = l.map (crEnrichArticle crEnv))
    ∧ (∀ l, upCheckMultipleArticles upEnv l = l.map (upCheckFullText upEnv))
    ∧ (∀ (a : Obj) (k : String), k ∈ keysOf a →
        k ∈ keysOf (crEnrichArticle crEnv a) ∧ k ∈ keysOf (upCheckFullText upEnv a))
    ∧ (∀ (a : Obj) (k : String), k ∉ crWrittenKeys →
        getKey (crEnrichArticle crEnv a) k = getKey a k)
    ∧ (∀ (a : Obj) (k : String), k ∉ upWrittenKeys →
        getKey (upCheckFullText upEnv a) k = getKey a k) := by
  refine ⟨fun l => ?_, fun l => ?_, fun a k hk => ⟨?_, ?_⟩, fun a k hk => ?_, fun a k hk => ?_⟩
  · cases l with
    | nil => rfl
    | cons x rest =>
      rw [crEnrichArticles, if_neg (by simp)]
      exact processBatches_eq_map _ _
  · cases l with
    | nil => rfl
    | cons x rest =>
      rw [upCheckMultipleArticles, if_neg (by simp)]
      exact processBatches_eq_map _ _
  · unfold crEnrichArticle
    by_cases hd : jsTruthy (getKey a "doi")
    · rw [if_pos hd]
      cases crEnv (strOfJVal (getKey a "doi")) with
      | error e => exact hk
      | ok data => exact mem_keysOf_setKeys _ a k hk
    · rw [if_neg hd]
      exact hk
  · unfold upCheckFullText
    by_cases hd : jsTruthy (getKey a "doi")
    · rw [if_pos hd]
      cases upEnv (strOfJVal (getKey a "doi")) with
      | error e => exact mem_keysOf_setKey a _ _ k hk
      | ok data =>
        dsimp only
        cases data.bestOaLocation with
        | some bestOA => exact mem_keysOf_setKeys _ a k hk
        | none => exact mem_keysOf_setKeys _ a k hk
    · rw [if_neg hd]
      exact mem_keysOf_setKey a _ _ k hk
  · unfold crEnrichArticle
    by_cases hd : jsTruthy (getKey a "doi")
    · rw [if_pos hd]
      cases crEnv (strOfJVal (getKey a "doi")) with
      | error e => rfl
      | ok data => exact getKey_setKeys_not_mem (crEnrichFields a data) a k hk
    · rw [if_neg hd]
  · have hfta : k ≠ "fullTextAvailable" := fun hc => hk (by rw [hc]; simp [upWrittenKeys])
    unfold upCheckFullText
    by_cases hd : jsTruthy (getKey a "doi")
    · rw [if_pos hd]
      cases upEnv (strOfJVal (getKey a "doi")) with
      | error e => exact getKey_setKey_ne a _ _ k hfta
      | ok data =>
        dsimp only
        cases data.bestOaLocation with
        | some bestOA => exact getKey_setKeys_not_mem (upEnrichFields a data bestOA) a k hk
        | none =>
          refine getKey_setKeys_not_mem _ a k (fun hmem => ?_)
          have hkk : k = "fullTextAvailable" ∨ k = "isOpenAccess" ∨ k = "oaStatus" := by
            simpa using hmem
          rcases hkk with rfl | rfl | rfl <;> exact hk (by simp [upWrittenKeys])
    · rw [if_neg hd]
      exact getKey_setKey_ne a _ _ k hfta

/-- CrossRef environment with a successful lookup. -/
def cOkCREnv : String → Except JsErr CRData :=
  fun _ => .ok ⟨some 5, none, some "Elsevier", none, none, none, none⟩

/-- Test article with a DOI. -/
def cDoiArticle : Obj :=
  [("title", .str "Aspirin trial"), ("doi", .str "10.1000/x"), ("citationCount", .num 0)]

theorem enrichArticles_length_order_frame_witness :
    ("title" ∈ keysOf (crEnrichArticle cOkCREnv cDoiArticle) ∧
      "title" ∈ keysOf (upCheckFullText cNoUPEnv cDoiArticle)) ∧
    getKey (crEnrichArticle cOkCREnv cDoiArticle) "title" = getKey cDoiArticle "title" ∧
    getKey (upCheckFullText cNoUPEnv cDoiArticle) "title" = getKey cDoiArticle "title" :=
  ⟨(enrichArticles_length_order_frame cOkCREnv cNoUPEnv).2.2.1 cDoiArticle "title" (by decide),
   (enrichArticles_length_order_frame cOkCREnv cNoUPEnv).2.2.2.1 cDoiArticle "title" (by decide),
   (enrichArticles_length_order_frame cOkCREnv cNoUPEnv).2.2.2.2 cDoiArticle "title" (by decide)⟩

/-! ### Cache service (`CacheService`, second unit of clinicaltrials.service.js) -/

/-- One cache entry (lines 411-415): the stored value, the absolute expiry
timestamp in ms (`null` for a non-positive TTL) and the creation time. -/
structure CacheEntry (V : Type) where
  value : V
  expiresAt : Option Nat
  createdAt : Nat
  deriving Repr

/-- State of the `CacheService` singleton: the backing `Map` (insertion-ordered
association list), the `enabled` flag, and the hit/miss/set counters. -/
structure CacheState (V : Type) where
  entries : List (String × CacheEntry V)
  enabled : Bool
  hits : Nat
  misses : Nat
  sets : Nat
  deriving Repr

/-- JS `Map.prototype.set`: overwrite in place when the key exists, else
append. -/
def mapInsert {V : Type} (entries : List (String × CacheEntry V)) (key : String)
    (e : CacheEntry V) : List (String × CacheEntry V) :=
  if entries.any (fun p => p.1 == key) then
    entries.map (fun p => if p.1 == key then (key, e) else p)
  else entries ++ [(key, e)]

/-- `Map.prototype.delete key` on the backing store (keys are unique, so
removing every pair with this key removes the one entry). -/
def mapDelete {V : Type} (entries : List (String × CacheEntry V)) (key : String) :
    List (String × CacheEntry V) :=
  entries.filter (fun q => !(q.1 == key))

/-- `CacheService.get` (lines 378-398), with the current time passed in:
disabled cache reads `null`; a missing key is a miss; an entry whose
`expiresAt` is non-null and strictly in the past is deleted and read as a miss
(lazy expiry); otherwise the value is returned as a hit. -/
def cacheGet {V : Type} (st : CacheState V) (key : String) (now : Nat) :
    Option V × CacheState V :=
  if st.enabled then
    match st.entries.find? (fun p => p.1 == key) with
    | none => (none, { st with misses := st.misses + 1 })
    | some p =>
      match p.2.expiresAt with
      | some exp =>
        if now > exp then
          (none, { st with entries := mapDelete st.entries key, misses := st.misses + 1 })
        else (some p.2.value, { st with hits := st.hits + 1 })
      | none => (some p.2.value, { st with hits := st.hits + 1 })
  else (none, st)

/-- `CacheService.set` (lines 406-419): no-op when disabled; stores the value
with absolute expiry `now + ttl*1000` (or `null` for `ttl ≤ 0`). -/
def cacheSet {V : Type} (st : CacheState V) (key : String) (v : V) (ttl now : Nat) :
    CacheState V :=
  if st.enabled then
    let expiry : Option Nat := if ttl > 0 then some (now + ttl * 1000) else none
    { st with entries := mapInsert st.entries key ⟨v, expiry, now⟩, sets := st.sets + 1 }
  else st

/-- `generateKey(prefix, data)` (lines 365-371) builds `prefix:md5(JSON(data))`.
The md5 digest is modelled by the serialized payload itself: the digest is a
deterministic function of the JSON text, and distinct payloads are assumed not
to collide. -/
def generateKey (kind payload : String) : String :=
  kind ++ ":" ++ payload

/-- The get-or-compute pattern shared by `cacheSearch` (lines 485-501) and
`cacheClaude` (lines 510-529): read the key; when the read is `null` (miss or
lazy expiry) or the cached value is falsy (`if (!results)`) invoke the compute
function once, store its result under the key with the given TTL and return
it; otherwise return the cached value without computing.  The returned `Bool`
records whether compute ran; `vTruthy` is JS truthiness on the value type
(cached search results and Claude responses are arrays/objects, hence always
truthy). -/
def getOrCompute {V : Type} (vTruthy : V → Bool) (kind payload : String) (ttl : Nat)
    (computeVal : V) (st : CacheState V) (now : Nat) : V × CacheState V × Bool :=
  let key := generateKey kind payload
  match (cacheGet st key now) with
  | (some v, st1) =>
    if vTruthy v then (v, st1, false)
    else (computeVal, cacheSet st1 key computeVal ttl now, true)
  | (none, st1) => (computeVal, cacheSet st1 key computeVal ttl now, true)

/-- `CacheService.cacheSearch` (lines 485-501): kind `search`, payload the
serialized `{ query, filters }`, TTL 24h = 86400s. -/
def cacheSearch {V : Type} (vTruthy : V → Bool) (payload : String) (computeVal : V)
    (st : CacheState V) (now : Nat) : V × CacheState V × Bool :=
  getOrCompute vTruthy "search" payload 86400 computeVal st now

/-- `CacheService.cacheClaude` (lines 510-529): kind `claude`, payload the
serialized `{ query, articleIds sorted }`, TTL 12h = 43200s. -/
def cacheClaude {V : Type} (vTruthy : V → Bool) (payload : String) (computeVal : V)
    (st : CacheState V) (now : Nat) : V × CacheState V × Bool :=
  getOrCompute vTruthy "claude" payload 43200 computeVal st now

private theorem find?_cons_eq {α : Type} (pred : α → Bool) (a : α) (l : List α) :
    List.find? pred (a :: l) = cond (pred a) (some a) (List.find? pred l) := by
  cases h : pred a <;> simp [List.find?, h]

theorem find?_mapInsert {V : Type} (entries : List (String × CacheEntry V)) (key : String)
    (e : CacheEntry V) :
    (mapInsert entries key e).find? (fun p => p.1 == key) = some (key, e) := by
  unfold mapInsert
  by_cases hany : entries.any (fun p => p.1 == key)
  · rw [if_pos hany]
    induction entries with
    | nil => simp at hany
    | cons p rest ih =>
      rw [List.map_cons]
      by_cases hp : (p.1 == key) = true
      · rw [if_pos hp, find?_cons_eq]
        simp
      · have hpf : (p.1 == key) = false := by rwa [Bool.not_eq_true] at hp
        rw [if_neg hp, find?_cons_eq]
        simp only [hpf, Bool.cond_false]
        refine ih ?_
        rcases List.any_eq_true.mp hany with ⟨q, hq, hqk⟩
        rcases List.mem_cons.mp hq with rfl | hq'
        · exact absurd hqk hp
        · exact List.any_eq_true.mpr ⟨q, hq', hqk⟩
  · rw [if_neg hany, List.find?_append]
    have hnone : entries.find? (fun p => p.1 == key) = none := by
      rw [List.find?_eq_none]
      intro p hp hpk
      exact hany (List.any_eq_true.mpr ⟨p, hp, hpk⟩)
    rw [hnone, find?_cons_eq]
    simp

theorem getOrCompute_miss {V : Type} (vTruthy : V → Bool) (kind payload : String)
    (ttl : Nat) (v : V) (st : CacheState V) (now : Nat)
    (hen : st.enabled = true)
    (hfr : st.entries.find? (fun p => p.1 == generateKey kind payload) = none) :
    getOrCompute vTruthy kind payload ttl v st now =
      (v, cacheSet { st with misses := st.misses + 1 } (generateKey kind payload) v ttl now,
        true) := by
  unfold getOrCompute cacheGet
  simp only [hen, if_true, hfr]

theorem getOrCompute_hit {V : Type} (vTruthy : V → Bool) (kind payload : String)
    (ttl : Nat) (v : V) (st : CacheState V) (now : Nat) (p : String × CacheEntry V)
    (exp : Nat)
    (hen : st.enabled = true)
    (hfr : st.entries.find? (fun q => q.1 == generateKey kind payload) = some p)
    (hexp : p.2.expiresAt = some exp)
    (hlive : ¬ now > exp)
    (htr : vTruthy p.2.value = true) :
    getOrCompute vTruthy kind payload ttl v st now =
      (p.2.value, { st with hits := st.hits + 1 }, false) := by
  unfold getOrCompute cacheGet
  simp only [hen, if_true, hfr, hexp, if_neg hlive, htr]

theorem getOrCompute_expired {V : Type} (vTruthy : V → Bool) (kind payload : String)
    (ttl : Nat) (v : V) (st : CacheState V) (now : Nat) (p : String × CacheEntry V)
    (exp : Nat)
    (hen : st.enabled = true)
    (hfr : st.entries.find? (fun q => q.1 == generateKey kind payload) = some p)
    (hexp : p.2.expiresAt = some exp)
    (hdead : now > exp) :
    (getOrCompute vTruthy kind payload ttl v st now).1 = v ∧
    (getOrCompute vTruthy kind payload ttl v st now).2.2 = true := by
  unfold getOrCompute cacheGet
  simp only [hen, if_true, hfr, hexp, if_pos hdead]
  exact ⟨by simp, by simp⟩

/-- C8: with caching enabled, for every `(kind, keyPayload)` pair and TTL, a
first cache-fronted call on a fresh key invokes compute and returns its value;
a second call with the same kind and payload at any time not past the entry's
absolute expiry `t1 + ttl*1000` returns the stored value without invoking
compute; a further call strictly after the expiry invokes compute again; an
entry whose expiry has passed is never returned by `get` (lazy expiry on
read); and `cacheSearch` / `cacheClaude` are exactly this pattern with kinds
`search` / `claude` and TTLs 86400s / 43200s. -/
theorem cache_getOrCompute_spec {V : Type} (vTruthy : V → Bool) (kind payload : String)
    (ttl : Nat) (v v2 v3 : V) (st : CacheState V) (t1 t2 t3 : Nat)
    (hen : st.enabled = true)
    (hfresh : st.entries.find? (fun p => p.1 == generateKey kind payload) = none)
    (htr : vTruthy v = true)
    (httl : 0 < ttl) :
    ((getOrCompute vTruthy kind payload ttl v st t1).1 = v ∧
      (getOrCompute vTruthy kind payload ttl v st t1).2.2 = true)
    ∧ (¬ t2 > t1 + ttl * 1000 →
        (getOrCompute vTruthy kind payload ttl v2
          (getOrCompute vTruthy kind payload ttl v st t1).2.1 t2).1 = v ∧
        (getOrCompute vTruthy kind payload ttl v2
          (getOrCompute vTruthy kind payload ttl v st t1).2.1 t2).2.2 = false)
    ∧ (t3 > t1 + ttl * 1000 →
        (getOrCompute vTruthy kind payload ttl v3
          (getOrCompute vTruthy kind payload ttl v st t1).2.1 t3).1 = v3 ∧
        (getOrCompute vTruthy kind payload ttl v3
          (getOrCompute vTruthy kind payload ttl v st t1).2.1 t3).2.2 = true)
    ∧ (∀ (st' : CacheState V) (key : String) (now : Nat) (p : String × CacheEntry V)
        (exp : Nat), st'.enabled = true →
        st'.entries.find? (fun q => q.1 == key) = some p →
        p.2.expiresAt = some exp → now > exp →
        (cacheGet st' key now).1 = none)
    ∧ (∀ (payload' : String) (v' : V) (st' : CacheState V) (now : Nat),
        cacheSearch vTruthy payload' v' st' now =
          getOrCompute vTruthy "search" payload' 86400 v' st' now)
    ∧ (∀ (payload' : String) (v' : V) (st' : CacheState V) (now : Nat),
        cacheClaude vTruthy payload' v' st' now =
          getOrCompute vTruthy "claude" payload' 43200 v' st' now) := by
  have h1 := getOrCompute_miss vTruthy kind payload ttl v st t1 hen hfresh
  have hst1 : (getOrCompute vTruthy kind payload ttl v st t1).2.1 =
      cacheSet { st with misses := st.misses + 1 } (generateKey kind payload) v ttl t1 := by
    rw [h1]
  have hen1 : (cacheSet { st with misses := st.misses + 1 }
      (generateKey kind payload) v ttl t1).enabled = true := by
    simp [cacheSet, hen]
  have hfind1 : (cacheSet { st with misses := st.misses + 1 }
        (generateKey kind payload) v ttl t1).entries.find?
        (fun q => q.1 == generateKey kind payload) =
      some (generateKey kind payload, ⟨v, some (t1 + ttl * 1000), t1⟩) := by
    simp only [cacheSet, hen, if_true]
    rw [if_pos httl]
    exact find?_mapInsert st.entries (generateKey kind payload) ⟨v, some (t1 + ttl * 1000), t1⟩
  refine ⟨⟨by rw [h1], by rw [h1]⟩, fun h2 => ?_, fun h3 => ?_, ?_,
    fun p' v' s' n' => rfl, fun p' v' s' n' => rfl⟩
  · rw [hst1]
    have hh := getOrCompute_hit vTruthy kind payload ttl v2 _ t2
      (generateKey kind payload, ⟨v, some (t1 + ttl * 1000), t1⟩) (t1 + ttl * 1000)
      hen1 hfind1 rfl h2 htr
    exact ⟨by rw [hh], by rw [hh]⟩
  · rw [hst1]
    exact getOrCompute_expired vTruthy kind payload ttl v3 _ t3
      (generateKey kind payload, ⟨v, some (t1 + ttl * 1000), t1⟩) (t1 + ttl * 1000)
      hen1 hfind1 rfl h3
  · intro st' key now p exp hen' hfr' hexp' hdead'
    unfold cacheGet
    simp only [hen', if_true, hfr', hexp', if_pos hdead']

/-- The initial state of a fresh, enabled cache service. -/
def freshCache : CacheState Nat :=
  ⟨[], true, 0, 0, 0⟩

theorem cache_getOrCompute_spec_witness :
    (getOrCompute (fun _ => true) "search" "aspirin" 86400 7 freshCache 1000).1 = 7 ∧
    (getOrCompute (fun _ => true) "search" "aspirin" 86400 7 freshCache 1000).2.2 = true ∧
    (getOrCompute (fun _ => true) "search" "aspirin" 86400 8
      (getOrCompute (fun _ => true) "search" "aspirin" 86400 7 freshCache 1000).2.1 2000).1 = 7 ∧
    (getOrCompute (fun _ => true) "search" "aspirin" 86400 8
      (getOrCompute (fun _ => true) "search" "aspirin" 86400 7 freshCache 1000).2.1 2000).2.2
      = false ∧
    (getOrCompute (fun _ => true) "search" "aspirin" 86400 9
      (getOrCompute (fun _ => true) "search" "aspirin" 86400 7 freshCache 1000).2.1
      86401001).1 = 9 ∧
    (getOrCompute (fun _ => true) "search" "aspirin" 86400 9
      (getOrCompute (fun _ => true) "search" "aspirin" 86400 7 freshCache 1000).2.1
      86401001).2.2 = true := by
  obtain ⟨h1, h2, h3, _, _, _⟩ := cache_getOrCompute_spec (fun _ => true) "search" "aspirin"
    86400 7 8 9 freshCache 1000 2000 86401001 rfl rfl rfl (by omega)
  exact ⟨h1.1, h1.2, (h2 (by omega)).1, (h2 (by omega)).2,
    (h3 (by omega)).1, (h3 (by omega)).2⟩

/-! ### ClinicalTrials.gov adapter (`ClinicalTrialsService`) -/

/-- `identificationModule` of a study's `protocolSection`. -/
structure CTIdentification where
  nctId : Option String
  briefTitle : Option String
  officialTitle : Option String
  deriving DecidableEq, Repr

/-- A `{ date }` struct. -/
structure CTDateStruct where
  date : Option String
  deriving DecidableEq, Repr

/-- `statusModule`. -/
structure CTStatus where
  overallStatus : Option String
  lastUpdatePostDateStruct : Option CTDateStruct
  startDateStruct : Option CTDateStruct
  completionDateStruct : Option CTDateStruct
  primaryCompletionDateStruct : Option CTDateStruct
  deriving DecidableEq, Repr

/-- `designModule.enrollmentInfo`. -/
structure CTEnrollmentInfo where
  count : Option Int
  deriving DecidableEq, Repr

/-- `designModule`. -/
structure CTDesign where
  phases : Option (List String)
  enrollmentInfo : Option CTEnrollmentInfo
  studyType : Option String
  deriving DecidableEq, Repr

/-- `sponsorCollaboratorsModule.leadSponsor`. -/
structure CTLeadSponsor where
  name : Option String
  deriving DecidableEq, Repr

/-- `sponsorCollaboratorsModule`. -/
structure CTSponsor where
  leadSponsor : Option CTLeadSponsor
  deriving DecidableEq, Repr

/-- `descriptionModule`. -/
structure CTDescription where
  briefSummary : Option String
  detailedDescription : Option String
  deriving DecidableEq, Repr

/-- `conditionsModule`. -/
structure CTConditions where
  conditions : Option (List String)
  deriving DecidableEq, Repr

/-- One entry of `armsInterventionsModule.interventions` (the provider always
carries a name). -/
structure CTIntervention where
  name : String
  deriving DecidableEq, Repr

/-- `armsInterventionsModule`. -/
structure CTInterventions where
  interventions : Option (List CTIntervention)
  deriving DecidableEq, Repr

/-- One entry of `outcomesModule.primaryOutcomes`. -/
structure CTOutcome where
  measure : String
  deriving DecidableEq, Repr

/-- `outcomesModule`. -/
structure CTOutcomes where
  primaryOutcomes : Option (List CTOutcome)
  deriving DecidableEq, Repr

/-- One entry of `derivedSection.references`. -/
structure CTReference where
  pmid : Option String
  citation : Option String
  deriving DecidableEq, Repr

/-- `derivedSection`. -/
structure CTDerived where
  references : Option (List CTReference)
  deriving DecidableEq, Repr

/-- `protocolSection` of a raw study.  (`eligibilityModule` is read into a
local that `normalizeTrial` never uses, so it is not modelled.) -/
structure CTProtocol where
  identificationModule : Option CTIdentification
  statusModule : Option CTStatus
  designModule : Option CTDesign
  sponsorCollaboratorsModule : Option CTSponsor
  descriptionModule : Option CTDescription
  conditionsModule : Option CTConditions
  armsInterventionsModule : Option CTInterventions
  outcomesModule : Option CTOutcomes
  deriving DecidableEq, Repr

/-- A raw study from the ClinicalTrials.gov v2 API; `resultsSection` only
matters through its presence (`hasResults = !!study.resultsSection`). -/
structure RawStudy where
  protocolSection : Option CTProtocol
  resultsSection : Option Unit
  derivedSection : Option CTDerived
  deriving DecidableEq, Repr

/-- Body of the ClinicalTrials.gov search response. -/
structure CTResponse where
  studies : Option (List RawStudy)
  deriving DecidableEq, Repr

/-- One quality tag `{ icon, label, color }`. -/
def ctTag (icon label color : String) : List (String × SVal) :=
  [("icon", .str icon), ("label", .str label), ("color", .str color)]

/-- `ClinicalTrialsService.generateQualityTags` (lines 207-241): phase tag,
status tag, results tag and enrollment tag, pushed in that order. -/
def generateQualityTags (status phase : String) (hasResults : Bool) (enrollment : Int) :
    List (List (String × SVal)) :=
  (if jsIncludes phase "PHASE4" then [ctTag "ðŸ†" "Phase 4" "violet"]
   else if jsIncludes phase "PHASE3" then [ctTag "ðŸ“Š" "Phase 3" "emerald"]
   else if jsIncludes phase "PHASE2" then [ctTag "ðŸ”¬" "Phase 2" "cyan"]
   else if jsIncludes phase "PHASE1" then [ctTag "ðŸ§ª" "Phase 1" "sky"]
   else [])
  ++ (if status = "COMPLETED" then [ctTag "âœ…" "Completed" "emerald"]
      else if status = "RECRUITING" ∨ status = "ACTIVE_NOT_RECRUITING" then
        [ctTag "ðŸ”„" "Active" "lime"]
      else [])
  ++ (if hasResults then [ctTag "ðŸ“ˆ" "Results Available" "violet"] else [])
  ++ (if enrollment > 1000 then [ctTag "ðŸ‘¥" ("Large (n=" ++ toString enrollment ++ ")") "amber"]
      else if enrollment > 100 then [ctTag "ðŸ‘¥" ("n=" ++ toString enrollment) "sky"]
      else [])

/-- `ClinicalTrialsService.normalizeTrial` (lines 100-202).  `dateYear` stands
in for the JS `new Date(s).getFullYear()` library call used for the `year`
field. -/
def normalizeTrial (dateYear : String → Int) (study : RawStudy) : Obj :=
  let proto := study.protocolSection
  let identOf := fun (p : Option CTProtocol) => p.bind CTProtocol.identificationModule
  let ident := identOf proto
  let status := proto.bind CTProtocol.statusModule
  let design := proto.bind CTProtocol.designModule
  let sponsor := proto.bind CTProtocol.sponsorCollaboratorsModule
  let desc := proto.bind CTProtocol.descriptionModule
  let conditions := proto.bind CTProtocol.conditionsModule
  let interventions := proto.bind CTProtocol.armsInterventionsModule
  let outcomes := proto.bind CTProtocol.outcomesModule
  let nctId := match ident.bind CTIdentification.nctId with
    | some s => if s = "" then "Unknown" else s
    | none => "Unknown"
  let title := jsOr (optStr (ident.bind CTIdentification.briefTitle))
    (jsOr (optStr (ident.bind CTIdentification.officialTitle)) (.str "No title"))
  let overallStatus := match status.bind CTStatus.overallStatus with
    | some s => if s = "" then "Unknown" else s
    | none => "Unknown"
  let lastUpdate := jsOr
    (optStr ((status.bind CTStatus.lastUpdatePostDateStruct).bind CTDateStruct.date))
    (.str "Unknown")
  let phases := (design.bind CTDesign.phases).getD []
  let phase := match String.intercalate ", " phases with
    | "" => "N/A"
    | s => s
  let conditionsList := (conditions.bind CTConditions.conditions).getD []
  let interventionsList :=
    ((interventions.bind CTInterventions.interventions).getD []).map CTIntervention.name
  let enrollment := ((design.bind CTDesign.enrollmentInfo).bind CTEnrollmentInfo.count).getD 0
  let leadSponsor := match (sponsor.bind CTSponsor.leadSponsor).bind CTLeadSponsor.name with
    | some s => if s = "" then "Unknown" else s
    | none => "Unknown"
  let briefSummary := (desc.bind CTDescription.briefSummary).getD ""
  let detailedDescription := (desc.bind CTDescription.detailedDescription).getD ""
  let abstract := if briefSummary ≠ "" then briefSummary
    else ⟨detailedDescription.data.take 500⟩
  let primaryOutcomes :=
    ((outcomes.bind CTOutcomes.primaryOutcomes).getD []).map CTOutcome.measure
  let url := "https://clinicaltrials.gov/study/" ++ nctId
  let hasResults := study.resultsSection.isSome
  let studyType := match design.bind CTDesign.studyType with
    | some s => if s = "" then "Interventional" else s
    | none => "Interventional"
  let startDate := jsOr
    (optStr ((status.bind CTStatus.startDateStruct).bind CTDateStruct.date)) .null
  let completionDate := jsOr
    (optStr ((status.bind CTStatus.completionDateStruct).bind CTDateStruct.date))
    (jsOr (optStr ((status.bind CTStatus.primaryCompletionDateStruct).bind CTDateStruct.date))
      .null)
  let publications := ((study.derivedSection.bind CTDerived.references).getD []).map
    (fun ref => [("pmid", svalOfOpt ref.pmid), ("citation", svalOfOpt ref.citation)])
  [("nctId", .str nctId),
   ("title", title),
   ("abstract", .str abstract),
   ("url", .str url),
   ("source", .str "ClinicalTrials.gov"),
   ("type", .str "clinical-trial"),
   ("status", .str overallStatus),
   ("phase", .str phase),
   ("studyType", .str studyType),
   ("enrollment", .num enrollment),
   ("conditions", .strList conditionsList),
   ("interventions", .strList interventionsList),
   ("primaryOutcomes", .strList primaryOutcomes),
   ("leadSponsor", .str leadSponsor),
   ("hasResults", .bool hasResults),
   ("startDate", startDate),
   ("completionDate", completionDate),
   ("lastUpdate", lastUpdate),
   ("publications", .recList publications),
   ("publicationCount", .num publications.length),
   ("journal", .str ("ClinicalTrials.gov (" ++ phase ++ ")")),
   ("year", if jsTruthy startDate then .num (dateYear (strOfJVal startDate))
     else .str "Unknown"),
   ("authors", .str leadSponsor),
   ("qualityTags", .recList (generateQualityTags overallStatus phase hasResults enrollment))]

/-- Case-insensitive prefix match, as a JS `gi` regex of a literal matches. -/
def isPrefixOfCI : List Char → List Char → Bool
  | [], _ => true
  | _ :: _, [] => false
  | p :: ps, c :: cs => (p.toLower == c.toLower) && isPrefixOfCI ps cs

/-- `.replace(new RegExp(term, 'gi'), '')`: remove every case-insensitive
occurrence, scanning left to right (fuel-driven; the list length suffices). -/
def removeAllCIFuel (pat : List Char) : Nat → List Char → List Char
  | 0, l => l
  | _, [] => []
  | fuel + 1, c :: cs =>
    if isPrefixOfCI pat (c :: cs) then removeAllCIFuel pat fuel ((c :: cs).drop pat.length)
    else c :: removeAllCIFuel pat fuel cs

/-- `.replace(/\s+/g, ' ')`: collapse each whitespace run to one space. -/
def collapseWsGo : Bool → List Char → List Char
  | _, [] => []
  | prevWs, c :: cs =>
    if isJsWhitespace c then
      if prevWs then collapseWsGo true cs else ' ' :: collapseWsGo true cs
    else c :: collapseWsGo false cs

/-- The trial-related stop-phrases `searchTrials` strips from the query
(line 50). -/
def trialTerms : List String :=
  ["phase 1", "phase 2", "phase 3", "phase 4", "clinical trial", "clinical trials",
   "trial", "trials", "study", "studies", "rct", "randomized controlled"]

/-- Query-to-condition translation of `ClinicalTrialsService.searchTrials`
(lines 46-60): drop double quotes and trim, remove each trial term
case-insensitively (trimming after each), then collapse whitespace and trim. -/
def ctCondition (query : String) : String :=
  let cleanQuery := trimString ⟨query.data.filter (fun c => c ≠ '"')⟩
  let condition := trialTerms.foldl
    (fun cond term =>
      trimString ⟨removeAllCIFuel term.data cond.data.length cond.data⟩) cleanQuery
  trimString ⟨collapseWsGo false condition.data⟩

/-- Options object of `searchTrials`. -/
structure CTOptions where
  condition : Option String
  intervention : Option String
  status : Option String
  phase : Option String
  limit : Option Int
  deriving DecidableEq, Repr

/-- The `query.cond` parameter actually sent: `options.condition || condition`
(line 63). -/
def ctQueryCond (query : String) (options : CTOptions) : String :=
  match options.condition with
  | some c => if c = "" then ctCondition query else c
  | none => ctCondition query

/-- `ClinicalTrialsService.searchTrials` (lines 42-95).  `env` is the outcome
of the axios GET for the computed condition; the function's catch swallows
every error — rate-limit sleep, transport, provider, normalization — and
returns `[]`, so a failure never escapes the adapter. -/
def searchTrials (env : String → Except JsErr CTResponse) (dateYear : String → Int)
    (query : String) (options : CTOptions) : List Obj :=
  match env (ctQueryCond query options) with
  | .error _ => []
  | .ok resp => ((resp.studies).getD []).map (normalizeTrial dateYear)

/-! ### OpenAlex adapter (`OpenAlexService`) -/

/-- `work.ids`. -/
structure OAIds where
  pmid : Option String
  deriving DecidableEq, Repr

/-- `primary_location.source`. -/
structure OASource where
  displayName : Option String
  hostOrganizationName : Option String
  deriving DecidableEq, Repr

/-- `work.primary_location`. -/
structure OALocationRaw where
  source : Option OASource
  deriving DecidableEq, Repr

/-- `work.host_venue`. -/
structure OAVenue where
  displayName : Option String
  deriving DecidableEq, Repr

/-- `authorships[i].author`. -/
structure OAAuthor where
  displayName : Option String
  deriving DecidableEq, Repr

/-- One entry of `work.authorships`. -/
structure OAAuthorship where
  author : Option OAAuthor
  deriving DecidableEq, Repr

/-- One entry of `work.concepts` (the provider always carries a
`display_name`). -/
structure OAConcept where
  displayName : String
  deriving DecidableEq, Repr

/-- `work.open_access`. -/
structure OAOpenAccess where
  isOa : Option Bool
  oaUrl : Option String
  deriving DecidableEq, Repr

/-- `work.cited_by_percentile_year`. -/
structure OAPercentile where
  max : Option Int
  deriving DecidableEq, Repr

/-- A raw OpenAlex work, with the fields `normalizeWork` reads.  `id` is
always present on an OpenAlex work.  The abstract inverted index maps each
word to its positions. -/
structure OAWork where
  id : String
  ids : Option OAIds
  doi : Option String
  title : Option String
  authorships : Option (List OAAuthorship)
  primaryLocation : Option OALocationRaw
  hostVenue : Option OAVenue
  publicationYear : Option Int
  abstractInvertedIndex : Option (List (String × List Nat))
  concepts : Option (List OAConcept)
  openAccess : Option OAOpenAccess
  type : Option String
  citedByCount : Option Int
  citedByPercentileYear : Option OAPercentile
  deriving DecidableEq, Repr

/-- Body of the OpenAlex works response. -/
structure OAResponse where
  results : Option (List OAWork)
  deriving DecidableEq, Repr

/-- `work.ids?.pmid?.match(/(\d+)$/)`: the trailing digit run, when
non-empty. -/
def trailingDigits (s : String) : Option String :=
  let ds := (s.data.reverse.takeWhile Char.isDigit).reverse
  if ds.isEmpty then none else some ⟨ds⟩

/-- `OpenAlexService.reconstructAbstract` (lines 186-204): place each word at
its positions (later entries of the index overwrite earlier at the same
position), drop the holes and falsy entries, join with spaces and cap at 2000
characters. -/
def reconstructAbstract (inv : List (String × List Nat)) : String :=
  let assignments := inv.foldl (fun acc p => acc ++ p.2.map (fun pos => (pos, p.1))) []
  let len := assignments.foldl (fun m a => max m (a.1 + 1)) 0
  let words := (List.range len).filterMap
    (fun i => (assignments.reverse.find? (fun a => a.1 == i)).map (·.2))
  ⟨(String.intercalate " " (words.filter (fun s => s ≠ ""))).data.take 2000⟩

/-- `OpenAlexService.normalizeWork` (lines 112-180), field for field in
literal order. -/
def normalizeWork (work : OAWork) : Obj :=
  let pmid := match (work.ids.bind OAIds.pmid) with
    | none => none
    | some s => trailingDigits s
  let doi := match work.doi with
    | none => JVal.null
    | some d => jsOr (.str ⟨replaceFirst "https://doi.org/".data [] d.data⟩) .null
  let url := jsOr (optStr work.doi)
    (.str ("https://openalex.org/" ++ ((splitOnChar '/' work.id.data).getLastD []).asString))
  let authors := jsOr
    (match work.authorships with
     | none => .undefined
     | some l => .str (String.intercalate ", "
        (((l.filterMap (fun a => a.author.bind OAAuthor.displayName))).filter
          (fun s => s ≠ ""))))
    (.str "Unknown")
  let journal := jsOr (optStr ((work.primaryLocation.bind OALocationRaw.source).bind
      OASource.displayName))
    (jsOr (optStr (work.hostVenue.bind OAVenue.displayName)) (.str "Unknown"))
  let year := jsOr
    (match work.publicationYear with
     | none => .undefined
     | some y => .num y)
    (.str "Unknown")
  let abstract := match work.abstractInvertedIndex with
    | some inv => JVal.str (reconstructAbstract inv)
    | none => JVal.null
  let concepts := ((work.concepts.getD []).take 5).map OAConcept.displayName
  let isOpenAccess := ((work.openAccess.bind OAOpenAccess.isOa).getD false)
  let oaUrl := jsOr (optStr (work.openAccess.bind OAOpenAccess.oaUrl)) .null
  [("pmid", match pmid with
     | some s => JVal.str s
     | none => JVal.null),
   ("doi", doi),
   ("title", jsOr (optStr work.title) (.str "No title")),
   ("authors", authors),
   ("journal", journal),
   ("year", year),
   ("abstract", abstract),
   ("url", url),
   ("source", .str "OpenAlex"),
   ("citationCount", jsOr
      (match work.citedByCount with
       | none => .undefined
       | some n => .num n)
      (.num 0)),
   ("isOpenAccess", .bool isOpenAccess),
   ("oaUrl", oaUrl),
   ("concepts", .strList concepts),
   ("type", jsOr (optStr work.type) (.str "article")),
   ("publisher", jsOr (optStr ((work.primaryLocation.bind OALocationRaw.source).bind
      OASource.hostOrganizationName)) .null),
   ("fullTextAvailable", .bool (isOpenAccess && jsTruthy oaUrl)),
   ("fullTextUrl", oaUrl),
   ("citedByPercentile", jsOr
      (match (work.citedByPercentileYear.bind OAPercentile.max) with
       | none => .undefined
       | some m => .num m)
      .null)]

/-- `OpenAlexService.searchWorks` (lines 44-75): the outcome of the axios GET
is passed in; on any thrown error the catch returns `[]`; otherwise
`(response.data.results || [])` is normalized. -/
def searchWorks (outcome : Except JsErr OAResponse) : List Obj :=
  match outcome with
  | .error _ => []
  | .ok resp => ((resp.results).getD []).map normalizeWork

/-- C9: each source adapter absorbs any transport or provider failure of its
underlying HTTP call and returns the empty list instead of raising —
`searchTrials`, `searchWorks`, and each branch of the multi-source
`performSearch`; consequently one failing adapter leaves the aggregated
search with exactly the other adapter's (deduplicated) results. -/
theorem adapters_error_to_empty :
    (∀ (env : String → Except JsErr CTResponse) (dateYear : String → Int) (q : String)
      (opts : CTOptions) (e : JsErr), env (ctQueryCond q opts) = .error e →
      searchTrials env dateYear q opts = [])
    ∧ (∀ e : JsErr, searchWorks (.error e) = [])
    ∧ (∀ (e : JsErr) (esummary : Except JsErr EsummaryResp) (epmc : Except JsErr EPMCResp),
        performSearch (.error e) esummary epmc = dedupArticles (performSearchEPMC epmc))
    ∧ (∀ (e : JsErr) (esearch : Except JsErr EsearchResp) (esummary : Except JsErr EsummaryResp),
        performSearch esearch esummary (.error e) =
          dedupArticles (performSearchPubMed esearch esummary)) := by
  refine ⟨fun env dateYear q opts e he => ?_, fun e => rfl,
    fun e esummary epmc => ?_, fun e esearch esummary => ?_⟩
  · unfold searchTrials
    rw [he]
  · unfold performSearch performSearchPubMed
    rw [List.nil_append]
  · unfold performSearch performSearchEPMC
    rw [List.append_nil]

theorem adapters_error_to_empty_witness :
    searchTrials (fun _ => .error ⟨some 500⟩) (fun _ => 0) "aspirin phase 3 trial"
      ⟨none, none, none, none, none⟩ = [] :=
  (adapters_error_to_empty).1 (fun _ => .error ⟨some 500⟩) (fun _ => 0)
    "aspirin phase 3 trial" ⟨none, none, none, none, none⟩ ⟨some 500⟩ rfl

end MedEvidence
